import Mathlib

/-!
Verification development for the document-intelligence core of the
`techstack-adobe-project-1a` repository.

The Python source is shallowly embedded: Python strings are modelled as
`List Char` (one entry per code point), Python floats as `ℚ` (exact
arithmetic; the properties proved here do not depend on rounding error),
Python ints as `ℤ`/`ℕ`, and fallible code as `Option`-returning
functions.  External collaborators (the NLTK tokenizers, the sklearn
TF-IDF vectorizer, the sentence-transformer embedding model) are passed
in as function parameters, exactly at the call boundary the source uses.
-/

/-- Python strings are modelled as their list of code points. -/
abbrev Str := List Char

namespace Py

/-- The whitespace set of Python's `str.strip` / `str.split()` (ASCII part). -/
def isWs (c : Char) : Bool :=
  c = ' ' || c = '\t' || c = '\n' || c = '\r' || c = '\x0b' || c = '\x0c'

/-- Python `str.strip()`: drop leading and trailing whitespace. -/
def strip (s : Str) : Str :=
  ((s.dropWhile isWs).reverse.dropWhile isWs).reverse

/-- Python `str.split()` (no argument), fuel-indexed so that it reduces in
the kernel; `fuel = s.length` always suffices because every recursive call
consumes at least one character. -/
def splitWsF : ℕ → Str → List Str
  | 0, _ => []
  | _, [] => []
  | fuel + 1, c :: cs =>
    if isWs c then splitWsF fuel cs
    else ((c :: cs).takeWhile (fun d => !isWs d))
      :: splitWsF fuel ((c :: cs).dropWhile (fun d => !isWs d))

/-- Python `str.split()` (no argument): split on whitespace runs, dropping
empty pieces. -/
def splitWs (s : Str) : List Str := splitWsF s.length s

/-- Python `str.split(sep)` for a single-character separator. -/
def splitOnChar (sep : Char) : Str → List Str
  | [] => [[]]
  | c :: cs =>
    if c = sep then [] :: splitOnChar sep cs
    else
      match splitOnChar sep cs with
      | [] => [[c]]
      | p :: ps => (c :: p) :: ps

/-- Python `str.lower()` (ASCII model). -/
def lower (s : Str) : Str := s.map Char.toLower

/-- Python `" ".join(parts)`. -/
def joinSpace : List Str → Str
  | [] => []
  | [p] => p
  | p :: q :: rest => p ++ ' ' :: joinSpace (q :: rest)

/-- Python slicing `s[a:b]` for non-negative bounds. -/
def slice (s : Str) (a b : ℕ) : Str := (s.take b).drop a

/-- Python `range(start, stop, step)` for a positive step. -/
def range3 (start stop step : ℕ) : List ℕ :=
  (List.range ((stop - start + step - 1) / step)).map (fun i => start + step * i)

/-- Fuel-indexed first-occurrence deduplication; `fuel = l.length`
suffices because `filter` never lengthens a list. -/
def dedupFirstF [DecidableEq α] : ℕ → List α → List α
  | 0, _ => []
  | _, [] => []
  | fuel + 1, a :: as => a :: dedupFirstF fuel (as.filter (fun b => ¬ b = a))

/-- First-occurrence deduplication (the iteration order of a Python `dict`
or of `Counter` keys built by insertion). -/
def dedupFirst [DecidableEq α] (l : List α) : List α := dedupFirstF l.length l

/-- Python `max(l, key=f)`: the first element attaining the maximal key
(`none` on an empty list, where Python raises `ValueError`). -/
def maxBy [LinearOrder β] (f : α → β) : List α → Option α
  | [] => none
  | a :: as =>
    match maxBy f as with
    | none => some a
    | some m => if f m > f a then some m else some a

/-- Python `str.isalpha()`: non-empty and all alphabetic. -/
def isAlphaStr (s : Str) : Bool := !s.isEmpty && s.all Char.isAlpha

/-- Python `l.index(x)`: position of the first occurrence (callers below
only use it on members, where Python's `ValueError` cannot occur). -/
def index [DecidableEq α] (l : List α) (x : α) : ℕ := l.findIdx (fun y => y = x)

/-- Accepts the tail of a Python integer literal after its first digit:
`(digit | '_' digit)*` (Python allows single underscores between digits). -/
def intTail : Str → Bool
  | [] => true
  | c :: rest =>
    if c = '_' then
      match rest with
      | [] => false
      | d :: rest2 => d.isDigit && intTail rest2
    else c.isDigit && intTail rest

/-- Numeric value of a digit/underscore string, ignoring underscores. -/
def digitsVal (s : Str) : ℕ :=
  s.foldl (fun acc c => if c.isDigit then acc * 10 + (c.toNat - 48) else acc) 0

/-- Python `int(s)` for a whitespace-free token: optional sign, then
digits with single underscores between digits; `none` models the
`ValueError` raise. -/
def pyInt? (s : Str) : Option ℤ :=
  let uint : Str → Option ℕ := fun cs =>
    match cs with
    | [] => none
    | c :: rest => if c.isDigit && intTail rest then some (digitsVal cs) else none
  match s with
  | '+' :: rest => (uint rest).map (fun n => (n : ℤ))
  | '-' :: rest => (uint rest).map (fun n => -(n : ℤ))
  | _ => (uint s).map (fun n => (n : ℤ))

end Py

/-! Deterministic matchers for the concrete regular expressions the source
uses (each regex is backtracking-free on its alternatives, so greedy
scanning is exact). -/

namespace Re

/-- `re.match(r'^[A-Z][A-Z\s]{minTail,}$', line)`: an upper-case letter
followed by at least `minTail` characters, all upper-case or whitespace,
to the end. -/
def allCapsTest (minTail : ℕ) : Str → Bool
  | [] => false
  | c :: rest => c.isUpper && minTail ≤ rest.length && rest.all (fun d => d.isUpper || Py.isWs d)

/-- `re.match(r'^\d+\.\s+[A-Z]', line)` (prefix match). -/
def numDotUpper (cs : Str) : Bool :=
  let ds := cs.takeWhile Char.isDigit
  let r1 := cs.dropWhile Char.isDigit
  ds ≠ [] &&
    (match r1 with
     | '.' :: r2 =>
       let ws := r2.takeWhile Py.isWs
       let r3 := r2.dropWhile Py.isWs
       ws ≠ [] && (match r3 with | u :: _ => u.isUpper | [] => false)
     | _ => false)

/-- `re.match(r'^\d+\.\d+\s+[A-Z]', line)` (prefix match). -/
def numNumUpper (cs : Str) : Bool :=
  let ds := cs.takeWhile Char.isDigit
  let r1 := cs.dropWhile Char.isDigit
  ds ≠ [] &&
    (match r1 with
     | '.' :: r2 =>
       let ds2 := r2.takeWhile Char.isDigit
       let r3 := r2.dropWhile Char.isDigit
       ds2 ≠ [] &&
         (let ws := r3.takeWhile Py.isWs
          let r4 := r3.dropWhile Py.isWs
          ws ≠ [] && (match r4 with | u :: _ => u.isUpper | [] => false))
     | _ => false)

/-- Consume `[A-Z][a-z]+` and return the remainder, if it matches. -/
def upperWord? : Str → Option Str
  | [] => none
  | c :: cs =>
    if c.isUpper then
      let lows := cs.takeWhile Char.isLower
      if lows = [] then none else some (cs.dropWhile Char.isLower)
    else none

/-- Accepts `(\s+[A-Z][a-z]+)*` followed by an optional colon (when
`allowColon`) and end-of-string; fuel-indexed (`fuel = cs.length`
suffices, every loop iteration consumes at least one character). -/
def titleRest (allowColon : Bool) : ℕ → Str → Bool
  | _, [] => true
  | 0, _ => false
  | fuel + 1, cs =>
    if cs = [':'] then allowColon
    else
      let r := cs.dropWhile Py.isWs
      if r.length = cs.length then false
      else
        match upperWord? r with
        | none => false
        | some r2 => titleRest allowColon fuel r2

/-- `re.match(r'^[A-Z][a-z]+(\s+[A-Z][a-z]+)*:?$', line)` (with
`allowColon = true`), or the same pattern without the optional colon
(`allowColon = false`). -/
def titleCaseTest (allowColon : Bool) (cs : Str) : Bool :=
  match upperWord? cs with
  | none => false
  | some rest => titleRest allowColon cs.length rest

/-- `re.match(r'^\d+\.\s+[A-Z][a-z]+(?:\s+[A-Z][a-z]+)*$', line)`. -/
def numDotTitleCase (cs : Str) : Bool :=
  let ds := cs.takeWhile Char.isDigit
  let r1 := cs.dropWhile Char.isDigit
  ds ≠ [] &&
    (match r1 with
     | '.' :: r2 =>
       let ws := r2.takeWhile Py.isWs
       let r3 := r2.dropWhile Py.isWs
       ws ≠ [] && titleCaseTest false r3
     | _ => false)

end Re

/-! ## `backend/server.py` — `calculate_similarity` (claim C1)

```python
def calculate_similarity(embedding1, embedding2):
    a = np.array(embedding1)
    b = np.array(embedding2)
    return np.dot(a, b) / (np.linalg.norm(a) * np.linalg.norm(b))
```

`np.linalg.norm v = √(Σ vᵢ²)`, so the denominator is zero exactly when one
of the squared norms is zero; in that case the numerator `np.dot a b` is an
IEEE zero as well (every product has a zero factor) and `0.0/0.0` evaluates
to NaN — numpy emits a runtime warning, it does not raise.  The result is
modelled symbolically: `SimResult.nan` for that case, and otherwise
`SimResult.val d sa sb` standing for the finite value `d / (√sa · √sb)`
with `d = dot a b`, `sa = Σ aᵢ²`, `sb = Σ bᵢ²` carried exactly. -/

namespace Backend

/-- Result of the cosine-similarity computation: either the IEEE NaN
produced by `0.0/0.0`, or a finite value `dot/(√sqA·√sqB)` represented by
its exact rational constituents. -/
inductive SimResult where
  | nan : SimResult
  | val (dot sqA sqB : ℚ) : SimResult
deriving DecidableEq, Repr

/-- `np.dot` of two equal-length vectors. -/
def dotProd (a b : List ℚ) : ℚ := ((a.zip b).map (fun p => p.1 * p.2)).sum

/-- Sum of squares, `‖v‖²`. -/
def sumSq (v : List ℚ) : ℚ := (v.map (fun x => x * x)).sum

/-- `calculate_similarity` from `backend/server.py` (lines 221–225).  The
division by `‖a‖·‖b‖` is performed with no guard: a zero denominator means
the IEEE quotient `0.0/0.0 = NaN`. -/
def calculate_similarity (a b : List ℚ) : SimResult :=
  if sumSq a = 0 ∨ sumSq b = 0 then SimResult.nan
  else SimResult.val (dotProd a b) (sumSq a) (sumSq b)

/-- Recognizer for the NaN outcome. -/
def SimResult.isNaN : SimResult → Bool
  | SimResult.nan => true
  | SimResult.val _ _ _ => false

theorem sumSq_nonneg (v : List ℚ) : 0 ≤ sumSq v := by
  induction v with
  | nil => simp [sumSq]
  | cons x xs ih =>
    simp only [sumSq, List.map_cons, List.sum_cons]
    have : 0 ≤ x * x := mul_self_nonneg x
    have := ih
    simp only [sumSq] at this
    linarith

/-! ### `create_embedding_segments` (claim C4)

```python
def create_embedding_segments(text, structure):
    segments = []
    if structure:
        ... # section-aligned branch
    else:
        chunks = [text[i:i+1000] for i in range(0, len(text), 800)]  # 200 char overlap
        for i, chunk in enumerate(chunks):
            if len(chunk.strip()) > 50:
                embedding = embedding_model.encode(chunk).tolist()
                segments.append({..., 'section_id': f"chunk_{i}",
                                 'title': f"Chunk {i+1}", 'content': chunk,
                                 'page_number': 1, 'embedding': embedding})
    return segments
```

The embedding model is an external collaborator and is passed in as the
parameter `embed`; the random `uuid4` value stored under `'id'` is external
randomness and is omitted from the model. -/

/-- A record of `detect_document_structure` (`backend/server.py` lines
130–178).  The random `uuid4` under `'id'` is omitted. -/
structure DSection where
  title : Str
  level : ℕ
  page_number : ℤ
  start_char : ℕ
  end_char : ℕ
  content : Str
deriving DecidableEq, Repr

/-- A record of `create_embedding_segments`.  The random `uuid4` under
`'id'` is omitted; in the section-aligned branch `section_id` (a `uuid4`
of the section) is likewise modelled as `[]`. -/
structure Segment where
  section_id : Str
  title : Str
  content : Str
  page_number : ℤ
  embedding : List ℚ
deriving DecidableEq, Repr

/-- The fallback branch's `for i, chunk in enumerate(chunks)` loop, with
the running chunk index made explicit. -/
def chunksLoop (embed : Str → List ℚ) : ℕ → List Str → List Segment
  | _, [] => []
  | i, c :: cs =>
    (if 50 < (Py.strip c).length then
      [⟨("chunk_".data ++ (Nat.repr i).data),
        ("Chunk ".data ++ (Nat.repr (i + 1)).data),
        c, 1, embed c⟩]
     else []) ++ chunksLoop embed (i + 1) cs

/-- `create_embedding_segments` from `backend/server.py` (lines 180–219). -/
def create_embedding_segments (embed : Str → List ℚ) (text : Str)
    (struct : List DSection) : List Segment :=
  if struct = [] then
    let chunks := (Py.range3 0 text.length 800).map (fun i => Py.slice text i (i + 1000))
    chunksLoop embed 0 chunks
  else
    struct.enum.filterMap (fun p =>
      let endPos : ℕ := match struct.get? (p.1 + 1) with
        | some nxt => nxt.start_char
        | none => text.length
      let segText := Py.strip (Py.slice text p.2.start_char endPos)
      if 50 < segText.length then
        some ⟨[], p.2.title, segText.take 1000, p.2.page_number, embed segText⟩
      else none)

/-- The chunk segment the fallback branch builds for chunk index `j`. -/
def fallbackChunkSeg (embed : Str → List ℚ) (text : Str) (j : ℕ) : Segment :=
  ⟨("chunk_".data ++ (Nat.repr j).data),
   ("Chunk ".data ++ (Nat.repr (j + 1)).data),
   Py.slice text (800 * j) (800 * j + 1000), 1,
   embed (Py.slice text (800 * j) (800 * j + 1000))⟩

/-- Number of fixed-size chunks produced before the length filter. -/
def numChunks (text : Str) : ℕ := (text.length + 800 - 1) / 800

/-! ### `detect_document_structure` (claim C5)

```python
def detect_document_structure(text):
    lines = text.split('\n')
    structure = []
    current_page = 1
    char_position = 0
    for line in lines:
        line = line.strip()
        if not line:
            char_position += 1
            continue
        if line.startswith("--- Page ") and line.endswith(" ---"):
            current_page = int(line.split()[2])
            char_position += len(line) + 1
            continue
        level = 0
        ... # regex cascade assigning level 1/2/3
        if level > 0:
            structure.append({'title': line, 'level': level,
                              'page_number': current_page,
                              'start_char': char_position,
                              'end_char': char_position + len(line),
                              'content': line})
        char_position += len(line) + 1
    return structure
```

`line.split()[2]` raises `IndexError` for markers with fewer than three
whitespace-separated tokens, and `int(...)` raises `ValueError` for a
non-integer token; both raises are modelled by `none`. -/

/-- The regex cascade of `detect_document_structure`, first match wins. -/
def headingLevel (line : Str) : ℕ :=
  if Re.allCapsTest 3 line then 1
  else if Re.numDotUpper line then 1
  else if Re.numNumUpper line then 2
  else if Re.titleCaseTest true line then 2
  else if line.length < 100 && !(line.getLast? = some '.') && line.any Char.isUpper then 3
  else 0

/-- The `for line in lines` loop of `detect_document_structure`, with the
running page, character position and accumulator made explicit. -/
def detectGo : List Str → ℤ → ℕ → List DSection → Option (List DSection)
  | [], _, _, acc => some acc
  | l :: ls, page, pos, acc =>
    let line := Py.strip l
    if line = [] then detectGo ls page (pos + 1) acc
    else if "--- Page ".data.isPrefixOf line && " ---".data.isSuffixOf line then
      ((Py.splitWs line).get? 2).bind (fun tok =>
        (Py.pyInt? tok).bind (fun n => detectGo ls n (pos + line.length + 1) acc))
    else
      let lvl := headingLevel line
      let acc' :=
        if 0 < lvl then acc ++ [⟨line, lvl, page, pos, pos + line.length, line⟩] else acc
      detectGo ls page (pos + line.length + 1) acc'

/-- `detect_document_structure` from `backend/server.py` (lines 130–178);
`none` models the `ValueError`/`IndexError` raise on a malformed
`--- Page ... ---` marker line. -/
def detect_document_structure (text : Str) : Option (List DSection) :=
  detectGo (Py.splitOnChar '\n' text) 1 0 []

/-- `Σ (len(line) + 1)` over a line list: the character budget the
position counter can consume. -/
def linesBudget (ls : List Str) : ℕ := (ls.map (fun l => l.length + 1)).sum

/-! ### `preprocess_text`, `calculate_sentence_scores`,
`extract_summary_offline` (claims C2 and C10)

```python
def preprocess_text(text):
    text = re.sub(r'--- Page \d+ ---', '', text)
    text = re.sub(r'\n+', ' ', text)
    text = re.sub(r'\s+', ' ', text)
    sentences = sent_tokenize(text)
    cleaned_sentences = []
    for sentence in sentences:
        if len(sentence.split()) > 5:
            cleaned_sentences.append(sentence.strip())
    return cleaned_sentences

def calculate_sentence_scores(sentences, title=""):
    all_text = [title] + sentences if title else sentences
    vectorizer = TfidfVectorizer(stop_words='english', max_features=100)
    try:
        tfidf_matrix = vectorizer.fit_transform(all_text)
        sentence_scores = {}
        for i, sentence in enumerate(sentences):
            if i + (1 if title else 0) < tfidf_matrix.shape[0]:
                score = tfidf_matrix[i + (1 if title else 0)].mean()
                sentence_scores[sentence] = score
            else:
                sentence_scores[sentence] = 0.0
        return sentence_scores
    except:
        return {sentence: len(sentence.split()) for sentence in sentences}

def extract_summary_offline(text, title="", max_sentences=5):
    sentences = preprocess_text(text)
    if len(sentences) <= max_sentences:
        return " ".join(sentences)
    sentence_scores = calculate_sentence_scores(sentences, title)
    top_sentences = heapq.nlargest(max_sentences, sentence_scores.items(), key=lambda x: x[1])
    summary_sentences = [s for s, _ in top_sentences]
    summary_sentences.sort(key=lambda x: sentences.index(x) if x in sentences else 0)
    return " ".join(summary_sentences)
```

`sent_tokenize` (NLTK) is an external collaborator, passed in as
`sentTok`; the sklearn TF-IDF matrix is external as well — its per-row
means enter as `rowMeans : Option (List ℚ)`, `none` modelling the
exception that triggers the word-count fallback.  A Python `dict` keyed
by sentence text is modelled as an association list with first-occurrence
key order and last-write-wins values (`dictInsert`); `heapq.nlargest` is
the documented equivalent of a stable descending sort followed by
`take`. -/

/-- Removes every occurrence of `--- Page \d+ ---` (fuel-indexed;
`fuel = s.length` suffices, each step consumes at least one character). -/
def stripMarkersF : ℕ → Str → Str
  | 0, _ => []
  | _, [] => []
  | fuel + 1, c :: cs =>
    let m : Option Str :=
      if "--- Page ".data.isPrefixOf (c :: cs) then
        let r1 := (c :: cs).drop 9
        let ds := r1.takeWhile Char.isDigit
        let r2 := r1.dropWhile Char.isDigit
        if ds ≠ [] && " ---".data.isPrefixOf r2 then some (r2.drop 4) else none
      else none
    match m with
    | some rest => stripMarkersF fuel rest
    | none => c :: stripMarkersF fuel cs

/-- `re.sub(r'--- Page \d+ ---', '', s)`. -/
def stripMarkers (s : Str) : Str := stripMarkersF s.length s

/-- `re.sub(r'\n+', ' ', s)` (fuel-indexed). -/
def collapseNlF : ℕ → Str → Str
  | 0, _ => []
  | _, [] => []
  | fuel + 1, c :: cs =>
    if c = '\n' then ' ' :: collapseNlF fuel (cs.dropWhile (fun d => d = '\n'))
    else c :: collapseNlF fuel cs

/-- `re.sub(r'\n+', ' ', s)`. -/
def collapseNl (s : Str) : Str := collapseNlF s.length s

/-- `re.sub(r'\s+', ' ', s)` (fuel-indexed). -/
def collapseWsF : ℕ → Str → Str
  | 0, _ => []
  | _, [] => []
  | fuel + 1, c :: cs =>
    if Py.isWs c then ' ' :: collapseWsF fuel (cs.dropWhile Py.isWs)
    else c :: collapseWsF fuel cs

/-- `re.sub(r'\s+', ' ', s)`. -/
def collapseWs (s : Str) : Str := collapseWsF s.length s

/-- `preprocess_text` from `backend/server.py` (lines 241–258), with the
NLTK sentence tokenizer as the parameter `sentTok`. -/
def preprocess_text (sentTok : Str → List Str) (text : Str) : List Str :=
  (sentTok (collapseWs (collapseNl (stripMarkers text)))).filterMap
    (fun s => if 5 < (Py.splitWs s).length then some (Py.strip s) else none)

/-- `d[k] = v` on an association list: overwrite in place if the key is
present (keeping its position), else append — Python `dict` semantics. -/
def dictInsert (d : List (Str × ℚ)) (k : Str) (v : ℚ) : List (Str × ℚ) :=
  if d.any (fun p => p.1 = k) then d.map (fun p => if p.1 = k then (k, v) else p)
  else d ++ [(k, v)]

/-- Build a `dict` from a list of key/value assignments, in order. -/
def buildDict (l : List (Str × ℚ)) : List (Str × ℚ) :=
  l.foldl (fun d p => dictInsert d p.1 p.2) []

/-- `calculate_sentence_scores` from `backend/server.py` (lines 260–283).
`rowMeans` is `tfidf_matrix[i].mean()` for each row of the fitted
matrix, `none` when `fit_transform` raises. -/
def calculate_sentence_scores (rowMeans : Option (List ℚ)) (sentences : List Str)
    (title : Str) : List (Str × ℚ) :=
  let off : ℕ := if title ≠ [] then 1 else 0
  match rowMeans with
  | some rows =>
    buildDict (sentences.enum.map (fun p =>
      (p.2, if p.1 + off < rows.length then rows.getD (p.1 + off) 0 else 0)))
  | none => buildDict (sentences.map (fun s => (s, ((Py.splitWs s).length : ℚ))))

/-- The list of sentences composing the summary that
`extract_summary_offline` returns. -/
def extract_summary_list (rowMeans : Option (List ℚ)) (sentTok : Str → List Str)
    (text title : Str) (maxS : ℕ) : List Str :=
  let sentences := preprocess_text sentTok text
  if sentences.length ≤ maxS then sentences
  else
    let scores := calculate_sentence_scores rowMeans sentences title
    let top := (scores.mergeSort (fun a b => decide (b.2 ≤ a.2))).take maxS
    let sel := top.map (fun p => p.1)
    sel.mergeSort (fun a b =>
      decide ((if a ∈ sentences then Py.index sentences a else 0)
        ≤ (if b ∈ sentences then Py.index sentences b else 0)))

/-- `extract_summary_offline` from `backend/server.py` (lines 285–306). -/
def extract_summary_offline (rowMeans : Option (List ℚ)) (sentTok : Str → List Str)
    (text title : Str) (maxS : ℕ) : Str :=
  Py.joinSpace (extract_summary_list rowMeans sentTok text title maxS)

/-! ### `answer_question_offline` (claim C8)

```python
def answer_question_offline(question, context_segments):
    question_words = set(word_tokenize(question.lower()))
    question_words = {w for w in question_words if w not in stop_words and w.isalpha()}
    if not question_words:
        return "I couldn't understand the question. Please try rephrasing it."
    best_matches = []
    for segment in context_segments:
        content = segment['content'].lower()
        content_words = set(word_tokenize(content))
        overlap = len(question_words.intersection(content_words))
        if overlap > 0:
            best_matches.append((segment, overlap / len(question_words)))
    if not best_matches:
        return "I couldn't find relevant information to answer your question."
    best_matches.sort(key=lambda x: x[1], reverse=True)
    best_segment = best_matches[0][0]
    sentences = sent_tokenize(best_segment['content'])
    relevant_sentences = [s for s in sentences
                          if question_words & set(word_tokenize(s.lower()))]
    if relevant_sentences:
        return " ".join(relevant_sentences[:3])
    return best_segment['content'][:500] + "..."
```

`word_tokenize`/`sent_tokenize` and the NLTK stop-word list are external
collaborators, passed in as parameters.  Python sets are modelled as
first-occurrence-deduplicated lists; only membership and intersection
cardinality are used, so iteration order is irrelevant. -/

/-- A candidate context segment (only its `'content'` field is read). -/
structure QSegment where
  content : Str
deriving DecidableEq, Repr

/-- The fixed "could not understand" message. -/
def msgNoUnderstand : Str :=
  "I couldn't understand the question. Please try rephrasing it.".data

/-- The fixed "no relevant information" message. -/
def msgNoInfo : Str :=
  "I couldn't find relevant information to answer your question.".data

/-- The question keyword set: lower-cased tokens that are alphabetic and
not stop-words, deduplicated. -/
def questionKeywords (wordTok : Str → List Str) (stopWords : List Str) (q : Str) :
    List Str :=
  Py.dedupFirst ((wordTok (Py.lower q)).filter
    (fun w => decide (w ∉ stopWords) && Py.isAlphaStr w))

/-- `len(question_words ∩ set(word_tokenize(segment.content.lower())))`. -/
def segOverlap (wordTok : Str → List Str) (qws : List Str) (seg : QSegment) : ℕ :=
  qws.countP (fun w => w ∈ wordTok (Py.lower seg.content))

/-- The answer extracted from the chosen segment: up to the first three
sentences containing a question keyword joined by spaces, else the first
500 characters plus an ellipsis. -/
def answerFromSegment (wordTok sentTok : Str → List Str) (qws : List Str)
    (seg : QSegment) : Str :=
  let sentences := sentTok seg.content
  let relevant := sentences.filter
    (fun s => 0 < qws.countP (fun w => w ∈ wordTok (Py.lower s)))
  if relevant ≠ [] then Py.joinSpace (relevant.take 3)
  else Py.slice seg.content 0 500 ++ "...".data

/-- `answer_question_offline` from `backend/server.py` (lines 308–352).
The `headD` default is unreachable: it is consulted only when the sorted
match list is empty, which the emptiness test just excluded. -/
def answer_question_offline (wordTok sentTok : Str → List Str) (stopWords : List Str)
    (question : Str) (segments : List QSegment) : Str :=
  let qws := questionKeywords wordTok stopWords question
  if qws = [] then msgNoUnderstand
  else
    let cands := segments.filterMap (fun seg =>
      let ov := segOverlap wordTok qws seg
      if 0 < ov then some (seg, ((ov : ℚ) / (qws.length : ℚ))) else none)
    if cands = [] then msgNoInfo
    else
      let sorted := cands.mergeSort (fun a b => decide (b.2 ≤ a.2))
      answerFromSegment wordTok sentTok qws (sorted.headD (⟨[]⟩, 0)).1

end Backend

theorem chunksLoop_range' (embed : Str → List ℚ) (text : Str) :
    ∀ (m i : ℕ),
    Backend.chunksLoop embed i
        ((List.range' i m).map (fun j => Py.slice text (800 * j) (800 * j + 1000)))
      = ((List.range' i m).map (Backend.fallbackChunkSeg embed text)).filter
          (fun s => 50 < (Py.strip s.content).length) := by
  intro m
  induction m with
  | zero => intro i; simp [Backend.chunksLoop]
  | succ m ih =>
    intro i
    rw [List.range'_succ]
    simp only [List.map_cons, List.filter_cons]
    rw [show Backend.chunksLoop embed i
          (Py.slice text (800 * i) (800 * i + 1000)
            :: (List.range' (i + 1) m).map (fun j => Py.slice text (800 * j) (800 * j + 1000)))
        = (if 50 < (Py.strip (Py.slice text (800 * i) (800 * i + 1000))).length then
            [Backend.fallbackChunkSeg embed text i] else [])
          ++ Backend.chunksLoop embed (i + 1)
              ((List.range' (i + 1) m).map (fun j => Py.slice text (800 * j) (800 * j + 1000)))
      from rfl]
    rw [ih (i + 1)]
    by_cases h : 50 < (Py.strip (Py.slice text (800 * i) (800 * i + 1000))).length
    · simp [Backend.fallbackChunkSeg, h]
    · simp [Backend.fallbackChunkSeg, h]

/-- C4: with empty structure, `create_embedding_segments` produces the
1000-character windows starting every 800 characters (chunk `j` is
`text[800·j : 800·j+1000]`), keeps exactly the chunks whose stripped
length exceeds 50, gives chunk `j` the synthetic title `"Chunk (j+1)"` and
page number 1 (as packaged by `fallbackChunkSeg`), and over a
2500-character text builds exactly 4 chunks before the length filter. -/
theorem c4_fallback_chunking (embed : Str → List ℚ) (text : Str) :
    Backend.create_embedding_segments embed text []
      = ((List.range (Backend.numChunks text)).map (Backend.fallbackChunkSeg embed text)).filter
          (fun s => 50 < (Py.strip s.content).length)
    ∧ (Py.range3 0 text.length 800).length = Backend.numChunks text
    ∧ (text.length = 2500 → Backend.numChunks text = 4) := by
  refine ⟨?_, ?_, ?_⟩
  · unfold Backend.create_embedding_segments
    rw [if_pos rfl]
    have hr : Py.range3 0 text.length 800
        = (List.range (Backend.numChunks text)).map (fun j => 800 * j) := by
      unfold Py.range3 Backend.numChunks
      simp
    rw [hr, List.map_map]
    have hc : ((fun i => Py.slice text i (i + 1000)) ∘ fun j => 800 * j)
        = fun j => Py.slice text (800 * j) (800 * j + 1000) := rfl
    rw [hc, List.range_eq_range']
    exact chunksLoop_range' embed text (Backend.numChunks text) 0
  · show ((List.range ((text.length - 0 + 800 - 1) / 800)).map _).length = _
    rw [List.length_map, List.length_range]
    unfold Backend.numChunks
    omega
  · intro h
    unfold Backend.numChunks
    rw [h]

/-- C4 witness: over the concrete 2500-character text `'a' * 2500` the
fallback path builds exactly 4 chunks before the length filter. -/
theorem c4_fallback_chunking_witness :
    (List.replicate 2500 'a').length = 2500 ∧
    Backend.numChunks (List.replicate 2500 'a') = 4 :=
  ⟨by rw [List.length_replicate],
   (c4_fallback_chunking (fun _ => []) (List.replicate 2500 'a')).2.2
     (by rw [List.length_replicate])⟩

/-! ## `round1a/process_pdfs.py` — `merge_lines` and `classify_headings`
(claims C7 and C6)

```python
def merge_lines(spans):
    if not spans:
        return []
    spans.sort(key=itemgetter("line", "x"))
    lines = []
    for _, group in groupby(spans, key=itemgetter("line")):
        group_list = list(group)
        if not group_list:
            continue
        text = " ".join(s["text"] for s in group_list).strip()
        if not text:
            continue
        ref_span = max(group_list, key=lambda s: s["size"])
        lines.append({"page": ref_span["page"], "text": text,
                      "size": ref_span["size"], "bold": ref_span["bold"]})
    return lines

def classify_headings(lines):
    if not lines:
        return None, []
    sizes = [ln["size"] for ln in lines]
    try:
        body_size = statistics.mode(sizes)
    except statistics.StatisticsError:
        body_size = statistics.median(sizes)
    title = None
    outline = []
    for ln in lines:
        size_ratio = ln["size"] / body_size
        if size_ratio >= 1.8:   level = "TITLE"
        elif size_ratio >= 1.4: level = "H1"
        elif size_ratio >= 1.2: level = "H2"
        elif size_ratio >= 1.05 or ln["bold"]: level = "H3"
        else: continue
        if level == "TITLE" and title is None:
            title = ln["text"]
        else:
            outline.append({"level": level, "text": ln["text"],
                            "page": ln["page"] + 1})
    return title, outline
```

Notes on semantics at the pinned interpreter: the repository requires
Python ≥ 3.9 (it uses bare `tuple[str, int]` annotations), and since
Python 3.8 `statistics.mode` no longer raises `StatisticsError` on
multimodal data — it returns the first mode encountered, so the
`median` fallback is unreachable for the non-empty `sizes` list.
`list.sort` is a stable sort (modelled by `mergeSort`), `itertools.groupby`
groups consecutive elements of equal key, and `max(..., key=...)` returns
the first element attaining the maximal key.  A second level line with
ratio ≥ 1.8 after the title is appended to the outline with the literal
level string `"TITLE"`. -/

namespace Round1A

/-- A text span from `extract_spans` (claim C7 quantifies over arbitrary
span lists). -/
structure Span where
  page : ℕ
  line : ℕ × ℕ
  x : ℚ
  size : ℚ
  bold : Bool
  text : Str
deriving DecidableEq, Repr

/-- A merged logical line. -/
structure Line where
  page : ℕ
  text : Str
  size : ℚ
  bold : Bool
deriving DecidableEq, Repr

/-- The sort key `itemgetter("line", "x")` compared as Python tuples
(lexicographically). -/
def spanLE (a b : Span) : Bool :=
  decide (a.line.1 < b.line.1 ∨ (a.line.1 = b.line.1 ∧ (a.line.2 < b.line.2
    ∨ (a.line.2 = b.line.2 ∧ a.x ≤ b.x))))

/-- `itertools.groupby(key)` on the sorted list: group consecutive spans
with equal key (fuel-indexed; `fuel = l.length` suffices). -/
def pyGroupByF (f : Span → ℕ × ℕ) : ℕ → List Span → List (List Span)
  | 0, _ => []
  | _, [] => []
  | fuel + 1, a :: as =>
    (a :: as.takeWhile (fun b => f b = f a))
      :: pyGroupByF f fuel (as.dropWhile (fun b => f b = f a))

/-- `itertools.groupby(key)` on the sorted list. -/
def pyGroupBy (f : Span → ℕ × ℕ) (l : List Span) : List (List Span) :=
  pyGroupByF f l.length l

/-- The body of the `for _, group in groupby(...)` loop: merged text
(space-joined, stripped; skip the line if empty), the first maximal-size
span as representative, its `page`, `size` and `bold`. -/
def mkLine? (group : List Span) : Option Line :=
  let text := Py.strip (Py.joinSpace (group.map (fun s => s.text)))
  if text = [] then none
  else
    match Py.maxBy (fun s => s.size) group with
    | none => none
    | some ref => some ⟨ref.page, text, ref.size, ref.bold⟩

/-- `merge_lines` from `round1a/process_pdfs.py` (lines 40–69). -/
def merge_lines (spans : List Span) : List Line :=
  if spans = [] then []
  else (pyGroupBy (fun s => s.line) (spans.mergeSort spanLE)).filterMap mkLine?

/-- The total packaging of one key's group, used to state C7: group text
space-joined in x order and stripped, size and bold of the first
maximal-size span. -/
def mkLineA (group : List Span) : Line :=
  match Py.maxBy (fun s => s.size) group with
  | none => ⟨0, [], 0, false⟩
  | some ref => ⟨ref.page, Py.strip (Py.joinSpace (group.map (fun s => s.text))),
      ref.size, ref.bold⟩

/-- The line-merging the C7 claim describes: identical to the source
except that the bold flag is the OR of all the group's bold flags. -/
def mkLineSpec? (group : List Span) : Option Line :=
  let text := Py.strip (Py.joinSpace (group.map (fun s => s.text)))
  if text = [] then none
  else
    match Py.maxBy (fun s => s.size) group with
    | none => none
    | some ref => some ⟨ref.page, text, ref.size, group.any (fun s => s.bold)⟩

/-- `merge_lines` as the C7 claim words it (bold = OR of the group). -/
def merge_lines_spec (spans : List Span) : List Line :=
  if spans = [] then []
  else (pyGroupBy (fun s => s.line) (spans.mergeSort spanLE)).filterMap mkLineSpec?

/-- `statistics.mode` of Python ≥ 3.8: the most frequent value, ties
broken by first encounter (`Counter` insertion order); total with junk 0
on the empty list, where CPython raises `StatisticsError`. -/
def pyMode (l : List ℚ) : ℚ :=
  match Py.maxBy (fun v => l.count v) (Py.dedupFirst l) with
  | some v => v
  | none => 0

/-- `statistics.median`: middle of the sorted list, or the mean of the
two middles (junk 0 on the empty list, where CPython raises). -/
def pyMedian (l : List ℚ) : ℚ :=
  let s := l.mergeSort (fun a b => decide (a ≤ b))
  let n := l.length
  if n % 2 = 1 then s.getD (n / 2) 0
  else (s.getD (n / 2 - 1) 0 + s.getD (n / 2) 0) / 2

/-- One outline entry of `classify_headings`. -/
structure OutEntry where
  level : Str
  text : Str
  page : ℕ
deriving DecidableEq, Repr

/-- The size-ratio classification cascade; `none` means the line is body
text and is discarded. -/
def classifyLevel (body : ℚ) (ln : Line) : Option Str :=
  let r := ln.size / body
  if r ≥ 1.8 then some "TITLE".data
  else if r ≥ 1.4 then some "H1".data
  else if r ≥ 1.2 then some "H2".data
  else if r ≥ 1.05 ∨ ln.bold then some "H3".data
  else none

/-- The classification loop, threading the `title` accumulator. -/
def classifyGo (body : ℚ) : List Line → Option Str → (Option Str × List OutEntry)
  | [], title => (title, [])
  | ln :: rest, title =>
    match classifyLevel body ln with
    | none => classifyGo body rest title
    | some lvl =>
      if lvl = "TITLE".data ∧ title = none then classifyGo body rest (some ln.text)
      else
        let p := classifyGo body rest title
        (p.1, ⟨lvl, ln.text, ln.page + 1⟩ :: p.2)

/-- `classify_headings` from `round1a/process_pdfs.py` (lines 71–113);
`none` models the `ZeroDivisionError` raised when the body size is the
float 0.0 (the loop divides by it on the first line). -/
def classify_headings (lines : List Line) : Option (Option Str × List OutEntry) :=
  if lines = [] then some (none, [])
  else
    let body := pyMode (lines.map (fun ln => ln.size))
    if body = 0 then none
    else some (classifyGo body lines none)

/-- Body size as the C6 claim words it: the unique statistical mode, or
the median when no unique mode exists. -/
def pyModeSpec (l : List ℚ) : ℚ :=
  let keys := Py.dedupFirst l
  let maxCount := (keys.map (fun v => l.count v)).foldr max 0
  if (keys.filter (fun v => l.count v = maxCount)).length = 1 then
    match Py.maxBy (fun v => l.count v) keys with
    | some v => v
    | none => 0
  else pyMedian l

/-- The classification loop as the C6 claim words it: a second
title-sized line is demoted to level `"H1"` in the outline. -/
def classifyGoSpec (body : ℚ) : List Line → Option Str → (Option Str × List OutEntry)
  | [], title => (title, [])
  | ln :: rest, title =>
    match classifyLevel body ln with
    | none => classifyGoSpec body rest title
    | some lvl =>
      if lvl = "TITLE".data then
        if title = none then classifyGoSpec body rest (some ln.text)
        else
          let p := classifyGoSpec body rest title
          (p.1, ⟨"H1".data, ln.text, ln.page + 1⟩ :: p.2)
      else
        let p := classifyGoSpec body rest title
        (p.1, ⟨lvl, ln.text, ln.page + 1⟩ :: p.2)

/-- `classify_headings` as the C6 claim words it (unique-mode-or-median
body size, later title lines demoted to H1). -/
def classify_headings_spec (lines : List Line) : Option (Option Str × List OutEntry) :=
  if lines = [] then some (none, [])
  else
    let body := pyModeSpec (lines.map (fun ln => ln.size))
    if body = 0 then none
    else some (classifyGoSpec body lines none)

/-- A title-sized line (`size_ratio ≥ 1.8`). -/
def isTitleLine (body : ℚ) (ln : Line) : Bool := decide (ln.size / body ≥ 1.8)

/-- The outline entry a classified line contributes (`none` for body
text). -/
def entryOf (body : ℚ) (ln : Line) : Option OutEntry :=
  (classifyLevel body ln).map (fun lvl => ⟨lvl, ln.text, ln.page + 1⟩)

end Round1A

/-! ## `hackathon_solution.py` — `PDFOutlineExtractor.detect_title` (claim C9)

```python
def detect_title(self, text):
    lines = text.split('\\n')
    first_page_lines = []
    for line in lines:
        if line.startswith("--- Page 2 ---"):
            break
        if not line.startswith("--- Page 1 ---") and line.strip():
            first_page_lines.append(line.strip())
    for line in first_page_lines[:10]:
        if len(line) > 5 and len(line) < 100:
            for pattern in self.title_patterns:
                if re.match(pattern, line):
                    return line
            words = line.split()
            if len(words) >= 2 and len(words) <= 10:
                if not any(w.lower() in ['the','this','that','these','those','a','an']
                           for w in words[:2]):
                    if line[0].isupper() and not line.endswith('.'):
                        return line
    for line in first_page_lines:
        if len(line) > 10 and len(line) < 100:
            return line
    return "Untitled Document"
```

`self.title_patterns` is `[r'^[A-Z][A-Z\\s]{5,}$',
r'^[A-Z][a-z]+(?:\\s+[A-Z][a-z]+)*$',
r'^\\d+\\.\\s+[A-Z][a-z]+(?:\\s+[A-Z][a-z]+)*$']`. -/

namespace Hackathon

/-- The article/demonstrative words excluded from the first two words. -/
def articleWords : List Str :=
  ["the".data, "this".data, "that".data, "these".data, "those".data, "a".data, "an".data]

/-- The "looks like a title" heuristic: 2–10 words, the first two are not
articles/demonstratives, first character upper-case, no trailing period. -/
def titleHeuristic (line : Str) : Bool :=
  let words := Py.splitWs line
  decide (2 ≤ words.length) && decide (words.length ≤ 10)
  && !((words.take 2).any (fun w => decide (Py.lower w ∈ articleWords)))
  && (match line with | c :: _ => c.isUpper | [] => false)
  && !(decide (line.getLast? = some '.'))

/-- The body of the first loop for one line: length guard, the three
stricter title patterns, then the heuristic. -/
def strictOk (line : Str) : Bool :=
  decide (5 < line.length) && decide (line.length < 100)
  && (Re.allCapsTest 5 line || Re.titleCaseTest false line || Re.numDotTitleCase line
      || titleHeuristic line)

/-- The stripped non-empty lines of page 1 (stop at the page-2 marker,
drop the page-1 marker). -/
def firstPageLines (text : Str) : List Str :=
  ((Py.splitOnChar '\n' text).takeWhile
      (fun l => ¬ "--- Page 2 ---".data.isPrefixOf l)).filterMap
    (fun l => if ¬ "--- Page 1 ---".data.isPrefixOf l ∧ Py.strip l ≠ []
      then some (Py.strip l) else none)

/-- The fallback "substantial line" test of the source:
`len(line) > 10 and len(line) < 100` — length exactly 10 fails. -/
def substantialOk (line : Str) : Bool :=
  decide (10 < line.length) && decide (line.length < 100)

/-- The fallback test as the C9 claim words it: length in `[10, 100)`,
length exactly 10 qualifying. -/
def substantialSpec (line : Str) : Bool :=
  decide (10 ≤ line.length) && decide (line.length < 100)

/-- `detect_title` from `hackathon_solution.py` (lines 70–103). -/
def detect_title (text : Str) : Str :=
  let fp := firstPageLines text
  match (fp.take 10).find? strictOk with
  | some l => l
  | none =>
    match fp.find? substantialOk with
    | some l => l
    | none => "Untitled Document".data

/-- `detect_title` as the C9 claim words it (fallback bound `[10, 100)`). -/
def detect_title_spec (text : Str) : Str :=
  let fp := firstPageLines text
  match (fp.take 10).find? strictOk with
  | some l => l
  | none =>
    match fp.find? substantialSpec with
    | some l => l
    | none => "Untitled Document".data

end Hackathon

/-! ## `round1b/persona_processor.py` — `calculate_relevance_score` (claim C3)

```python
def calculate_relevance_score(self, section):
    content_text = (section['title'] + ' ' + section['content']).lower()
    words = re.findall(r'\b\w{3,}\b', content_text)
    if not words:
        return 0.0
    score = 0.0
    persona_matches = sum(1 for word in words if word in self.persona_keywords)
    score += (persona_matches / len(words)) * 20
    job_matches = sum(1 for word in words if word in self.job_keywords)
    score += (job_matches / len(words)) * 30
    for domain, keywords in self.domain_patterns.items():
        domain_matches = sum(1 for word in words if word in keywords)
        if domain_matches > 0:
            score += (domain_matches / len(words)) * 10
    length_score = min(len(content_text) / 100, 5)
    sentence_count = content_text.count('.') + content_text.count('!') + content_text.count('?')
    sentence_score = min(sentence_count / 3, 3)
    structure_score = 0
    if '•' in content_text or '\n-' in content_text:
        structure_score += 2
    if any(word in content_text for word in ['table', 'figure', 'chart', 'graph']):
        structure_score += 1
    if re.search(r'\d+%|\$\d+|\d+\.\d+', content_text):
        structure_score += 1
    total_score = score + length_score + sentence_score + structure_score
    return round(min(total_score, 10.0), 1)
```

`re.findall(r'\b\w{3,}\b', t)` returns the maximal word-character runs of
`t` of length at least 3, and `re.search(r'\d+%|\$\d+|\d+\.\d+', t)` is
positive exactly when `t` contains a digit followed by `%`, or `$`
followed by a digit, or digit-dot-digit adjacently. -/

namespace Round1B

/-- A regex word character (`\w`, ASCII model). -/
def wordChar (c : Char) : Bool := c.isAlphanum || c = '_'

/-- Fuel-indexed maximal-run scanner; `fuel = s.length` suffices because
every recursive call consumes at least one character. -/
def wordRunsF : ℕ → Str → List Str
  | 0, _ => []
  | _, [] => []
  | fuel + 1, c :: cs =>
    if wordChar c then
      ((c :: cs).takeWhile wordChar) :: wordRunsF fuel ((c :: cs).dropWhile wordChar)
    else wordRunsF fuel cs

/-- Maximal word-character runs of a string. -/
def wordRuns (s : Str) : List Str := wordRunsF s.length s

/-- `re.findall(r'\b\w{3,}\b', s)`. -/
def findWords (s : Str) : List Str := (wordRuns s).filter (fun r => 3 ≤ r.length)

/-- Adjacent two-character pattern search (`re.search` of `XY`-shaped
alternatives such as `\d+%`, which hits iff a digit is immediately
followed by `%`). -/
def hasPairAdj (p q : Char → Bool) : Str → Bool
  | [] => false
  | [_] => false
  | a :: b :: rest => (p a && q b) || hasPairAdj p q (b :: rest)

/-- Adjacent three-character pattern search (for `\d+\.\d+`). -/
def hasTripleAdj (p q r : Char → Bool) : Str → Bool
  | [] => false
  | [_] => false
  | [_, _] => false
  | a :: b :: c :: rest => (p a && q b && r c) || hasTripleAdj p q r (b :: c :: rest)

/-- `re.search(r'\d+%|\$\d+|\d+\.\d+', s)` as a Boolean. -/
def hasNumPattern (s : Str) : Bool :=
  hasPairAdj Char.isDigit (fun c => c = '%') s
  || hasPairAdj (fun c => c = '$') Char.isDigit s
  || hasTripleAdj Char.isDigit (fun c => c = '.') Char.isDigit s

/-- Substring test (`pat in s`). -/
def containsSeq (s pat : Str) : Bool := decide (pat <:+: s)

/-- `self.domain_patterns`, verbatim (note `'ROI'` and `'IT'` are stored
upper-case although matched words are lower-cased). -/
def domain_patterns : List (Str × List Str) :=
  [("travel".data, ["destination".data, "hotel".data, "restaurant".data, "attraction".data,
      "transport".data, "booking".data, "itinerary".data, "sightseeing".data]),
   ("research".data, ["methodology".data, "analysis".data, "data".data, "study".data,
      "findings".data, "experiment".data, "survey".data, "results".data]),
   ("business".data, ["strategy".data, "market".data, "revenue".data, "customer".data,
      "product".data, "sales".data, "profit".data, "ROI".data]),
   ("education".data, ["learning".data, "student".data, "course".data, "curriculum".data,
      "degree".data, "academic".data, "university".data, "college".data]),
   ("healthcare".data, ["patient".data, "treatment".data, "medical".data, "diagnosis".data,
      "therapy".data, "health".data, "clinical".data, "medicine".data]),
   ("technology".data, ["software".data, "development".data, "programming".data, "system".data,
      "application".data, "digital".data, "tech".data, "IT".data])]

/-- Python `round(q, 1)`: round to one decimal, ties to even (banker's
rounding, idealized over exact rationals). -/
def pyRound1 (q : ℚ) : ℚ :=
  let s := q * 10
  let f : ℤ := ⌊s⌋
  let r := s - f
  let n : ℤ :=
    if r < 1/2 then f
    else if (1 : ℚ)/2 < r then f + 1
    else if f % 2 = 0 then f else f + 1
  (n : ℚ) / 10

/-- A section record of `detect_sections_in_text`. -/
structure RSection where
  title : Str
  content : Str
  page_num : ℤ
deriving DecidableEq, Repr

/-- `(section['title'] + ' ' + section['content']).lower()`. -/
def contentText (sec : RSection) : Str := Py.lower (sec.title ++ ' ' :: sec.content)

/-- One keyword-overlap component: `(matches / len(words)) * weight`. -/
def matchRatioScore (ks : List Str) (weight : ℚ) (sec : RSection) : ℚ :=
  let words := findWords (contentText sec)
  ((words.countP (fun w => w ∈ ks) : ℚ) / (words.length : ℚ)) * weight

/-- The domain-pattern component: `(domain_matches / len(words)) * 10`
summed over the domains with a positive match count. -/
def domainScore (sec : RSection) : ℚ :=
  let words := findWords (contentText sec)
  (domain_patterns.map (fun d =>
    let dm := words.countP (fun w => w ∈ d.2)
    if 0 < dm then ((dm : ℚ) / (words.length : ℚ)) * 10 else 0)).sum

/-- `length_score = min(len(content_text) / 100, 5)`. -/
def lengthScore (sec : RSection) : ℚ := min (((contentText sec).length : ℚ) / 100) 5

/-- `sentence_score = min(sentence_count / 3, 3)`. -/
def sentenceScore (sec : RSection) : ℚ :=
  let t := contentText sec
  min (((t.count '.' + t.count '!' + t.count '?' : ℕ) : ℚ) / 3) 3

/-- The structural bonus: +2 for bullet markers, +1 for a
table/figure/chart/graph keyword, +1 for a numeric/percent/currency
pattern. -/
def structScore (sec : RSection) : ℚ :=
  let t := contentText sec
  (if ('•' ∈ t) || containsSeq t ['\n', '-'] then 2 else 0)
  + (if ["table".data, "figure".data, "chart".data, "graph".data].any (containsSeq t) then 1 else 0)
  + (if hasNumPattern t then 1 else 0)

/-- `calculate_relevance_score` from `round1b/persona_processor.py`
(lines 148–186), with the persona/job keyword lists passed explicitly. -/
def calculate_relevance_score (pk jk : List Str) (sec : RSection) : ℚ :=
  if findWords (contentText sec) = [] then 0
  else
    pyRound1 (min (matchRatioScore pk 20 sec + matchRatioScore jk 30 sec + domainScore sec
      + lengthScore sec + sentenceScore sec + structScore sec) 10)

theorem strip_length_le (s : Str) : (Py.strip s).length ≤ s.length := by
  unfold Py.strip
  rw [List.length_reverse]
  have h1 := (List.dropWhile_sublist (l := (s.dropWhile Py.isWs).reverse) Py.isWs).length_le
  have h2 := (List.dropWhile_sublist (l := s) Py.isWs).length_le
  rw [List.length_reverse] at h1
  omega

theorem splitOnChar_ne_nil (sep : Char) (s : Str) : Py.splitOnChar sep s ≠ [] := by
  cases s with
  | nil => simp [Py.splitOnChar]
  | cons c cs =>
    unfold Py.splitOnChar
    by_cases h : c = sep
    · simp [h]
    · simp only [if_neg h]
      cases Py.splitOnChar sep cs <;> simp

theorem linesBudget_splitOnChar (sep : Char) (s : Str) :
    Backend.linesBudget (Py.splitOnChar sep s) = s.length + 1 := by
  induction s with
  | nil => simp [Py.splitOnChar, Backend.linesBudget]
  | cons c cs ih =>
    unfold Py.splitOnChar
    by_cases h : c = sep
    · simp only [if_pos h, Backend.linesBudget, List.map_cons, List.sum_cons]
      simp only [Backend.linesBudget] at ih
      simp only [ih, List.length_cons, List.length_nil]
      omega
    · simp only [if_neg h]
      cases hs : Py.splitOnChar sep cs with
      | nil => exact absurd hs (splitOnChar_ne_nil sep cs)
      | cons p ps =>
        rw [hs] at ih
        simp only [Backend.linesBudget, List.map_cons, List.sum_cons] at ih ⊢
        simp only [List.length_cons]
        omega

/-- The monotonicity relation the C5 claim asserts between consecutive
outline records. -/
def dsRel (a b : Backend.DSection) : Prop :=
  a.start_char ≤ b.start_char ∧ a.end_char ≤ b.end_char

theorem detectGo_spec :
    ∀ (ls : List Str) (page : ℤ) (pos : ℕ) (acc res : List Backend.DSection),
    Backend.detectGo ls page pos acc = some res →
    (∀ r ∈ acc, r.start_char ≤ r.end_char ∧ r.end_char + 1 ≤ pos) →
    List.Pairwise dsRel acc →
    (∀ r ∈ res, r.start_char ≤ r.end_char ∧ r.end_char + 1 ≤ pos + Backend.linesBudget ls)
    ∧ List.Pairwise dsRel res := by
  intro ls
  induction ls with
  | nil =>
    intro page pos acc res h hinv hpw
    simp only [Backend.detectGo, Option.some_inj] at h
    subst h
    exact ⟨fun r hr => ⟨(hinv r hr).1, le_trans (hinv r hr).2 (Nat.le_add_right _ _)⟩, hpw⟩
  | cons l ls ih =>
    intro page pos acc res h hinv hpw
    have hbudget : Backend.linesBudget (l :: ls) = l.length + 1 + Backend.linesBudget ls := by
      simp only [Backend.linesBudget, List.map_cons, List.sum_cons]
    have hlen := strip_length_le l
    simp only [Backend.detectGo] at h
    by_cases hline : Py.strip l = []
    · rw [if_pos hline] at h
      have hr := ih page (pos + 1) acc res h
        (fun r hr => ⟨(hinv r hr).1, by have := (hinv r hr).2; omega⟩) hpw
      refine ⟨fun r hrm => ⟨(hr.1 r hrm).1, ?_⟩, hr.2⟩
      have := (hr.1 r hrm).2
      omega
    · rw [if_neg hline] at h
      by_cases hmark : ("--- Page ".data.isPrefixOf (Py.strip l)
          && " ---".data.isSuffixOf (Py.strip l)) = true
      · rw [if_pos hmark] at h
        cases hg : (Py.splitWs (Py.strip l)).get? 2 with
        | none => rw [hg] at h; simp at h
        | some tok =>
          rw [hg, Option.some_bind] at h
          cases hi : Py.pyInt? tok with
          | none => rw [hi] at h; simp at h
          | some n =>
            rw [hi, Option.some_bind] at h
            have hr := ih n (pos + (Py.strip l).length + 1) acc res h
              (fun r hrm => ⟨(hinv r hrm).1, by have := (hinv r hrm).2; omega⟩) hpw
            refine ⟨fun r hrm => ⟨(hr.1 r hrm).1, ?_⟩, hr.2⟩
            have := (hr.1 r hrm).2
            omega
      · rw [if_neg hmark] at h
        by_cases hl : 0 < Backend.headingLevel (Py.strip l)
        · rw [if_pos hl] at h
          have hinv' : ∀ r ∈ acc ++ [⟨Py.strip l, Backend.headingLevel (Py.strip l), page,
              pos, pos + (Py.strip l).length, Py.strip l⟩],
              r.start_char ≤ r.end_char ∧ r.end_char + 1 ≤ pos + (Py.strip l).length + 1 := by
            intro r hrm
            rcases List.mem_append.mp hrm with hmem | hmem
            · exact ⟨(hinv r hmem).1, by have := (hinv r hmem).2; omega⟩
            · rcases List.mem_singleton.mp hmem with rfl
              exact ⟨Nat.le_add_right _ _, le_refl _⟩
          have hpw' : List.Pairwise dsRel (acc ++ [⟨Py.strip l,
              Backend.headingLevel (Py.strip l), page, pos,
              pos + (Py.strip l).length, Py.strip l⟩]) := by
            rw [List.pairwise_append]
            refine ⟨hpw, List.pairwise_singleton _ _, ?_⟩
            intro a hma b hmb
            rcases List.mem_singleton.mp hmb with rfl
            have ha := hinv a hma
            constructor
            · show a.start_char ≤ pos
              omega
            · show a.end_char ≤ pos + (Py.strip l).length
              omega
          have hr := ih page (pos + (Py.strip l).length + 1) _ res h hinv' hpw'
          refine ⟨fun r hrm => ⟨(hr.1 r hrm).1, ?_⟩, hr.2⟩
          have := (hr.1 r hrm).2
          omega
        · rw [if_neg hl] at h
          have hr := ih page (pos + (Py.strip l).length + 1) acc res h
            (fun r hrm => ⟨(hinv r hrm).1, by have := (hinv r hrm).2; omega⟩) hpw
          refine ⟨fun r hrm => ⟨(hr.1 r hrm).1, ?_⟩, hr.2⟩
          have := (hr.1 r hrm).2
          omega

/-- C5: whenever `detect_document_structure` returns (it raises only on a
malformed page-marker line, modelled by `none`), every record's offset
range `[start_char, end_char)` satisfies `0 ≤ start_char ≤ end_char ≤
len(text)`, and both endpoints are monotonically non-decreasing across
the outline in document order. -/
theorem c5_structure_offsets (text : Str) (res : List Backend.DSection)
    (h : Backend.detect_document_structure text = some res) :
    (∀ r ∈ res, 0 ≤ r.start_char ∧ r.start_char ≤ r.end_char ∧ r.end_char ≤ text.length)
    ∧ List.Pairwise dsRel res := by
  unfold Backend.detect_document_structure at h
  have hs := detectGo_spec _ 1 0 [] res h (by simp) (by simp)
  have hb := linesBudget_splitOnChar '\n' text
  refine ⟨fun r hr => ⟨Nat.zero_le _, (hs.1 r hr).1, ?_⟩, hs.2⟩
  have := (hs.1 r hr).2
  omega

/-- C5 witness: the offsets invariant at the concrete two-line text
`"HELLO WORLD\nabc"`, whose only detected heading is the ALL-CAPS line. -/
theorem c5_structure_offsets_witness :
    Backend.detect_document_structure "HELLO WORLD\nabc".data
      = some [⟨"HELLO WORLD".data, 1, 1, 0, 11, "HELLO WORLD".data⟩] ∧
    (∀ r ∈ [(⟨"HELLO WORLD".data, 1, 1, 0, 11, "HELLO WORLD".data⟩ : Backend.DSection)],
      0 ≤ r.start_char ∧ r.start_char ≤ r.end_char
        ∧ r.end_char ≤ ("HELLO WORLD\nabc".data : Str).length)
    ∧ List.Pairwise dsRel [⟨"HELLO WORLD".data, 1, 1, 0, 11, "HELLO WORLD".data⟩] :=
  ⟨by decide,
   c5_structure_offsets "HELLO WORLD\nabc".data
     [⟨"HELLO WORLD".data, 1, 1, 0, 11, "HELLO WORLD".data⟩] (by decide)⟩

theorem py_index_inj [DecidableEq α] : ∀ {l : List α} {x y : α}, x ∈ l → y ∈ l →
    Py.index l x = Py.index l y → x = y := by
  intro l
  induction l with
  | nil => intro x y hx _ _; cases hx
  | cons a as ih =>
    intro x y hx hy h
    unfold Py.index at h
    rw [List.findIdx_cons, List.findIdx_cons] at h
    by_cases h1 : a = x
    · by_cases h2 : a = y
      · rw [← h1, h2]
      · subst h1
        simp [h2] at h
    · by_cases h2 : a = y
      · subst h2
        simp [h1] at h
      · simp [h1, h2] at h
        have hx' : x ∈ as := by
          rcases List.mem_cons.mp hx with rfl | hm
          · exact absurd rfl h1
          · exact hm
        have hy' : y ∈ as := by
          rcases List.mem_cons.mp hy with rfl | hm
          · exact absurd rfl h2
          · exact hm
        exact ih hx' hy' (by unfold Py.index; omega)

theorem dictInsert_keys (d : List (Str × ℚ)) (k : Str) (v : ℚ) :
    (Backend.dictInsert d k v).map Prod.fst
      = if d.any (fun p => p.1 = k) then d.map Prod.fst else d.map Prod.fst ++ [k] := by
  unfold Backend.dictInsert
  split
  · rw [List.map_map]
    apply List.map_congr_left
    intro p _
    by_cases hpk : p.1 = k
    · simp [hpk]
    · simp [hpk]
  · simp

theorem buildDictAux_nodup :
    ∀ (l d : List (Str × ℚ)), (d.map Prod.fst).Nodup →
    ((l.foldl (fun d p => Backend.dictInsert d p.1 p.2) d).map Prod.fst).Nodup := by
  intro l
  induction l with
  | nil => intro d h; exact h
  | cons p l ih =>
    intro d h
    simp only [List.foldl_cons]
    apply ih
    rw [dictInsert_keys]
    split
    · exact h
    · rename_i hany
      have hnotin : p.1 ∉ d.map Prod.fst := by
        intro hmem
        rcases List.mem_map.mp hmem with ⟨q, hq, hq2⟩
        exact hany (List.any_eq_true.mpr ⟨q, hq, by simp [hq2]⟩)
      exact List.nodup_append.mpr ⟨h, List.nodup_singleton _,
        fun a ha hb => hnotin (by rcases List.mem_singleton.mp hb with rfl; exact ha)⟩

theorem buildDictAux_keys_sub :
    ∀ (l d : List (Str × ℚ)) (x : Str),
    x ∈ (l.foldl (fun d p => Backend.dictInsert d p.1 p.2) d).map Prod.fst →
    x ∈ d.map Prod.fst ∨ x ∈ l.map Prod.fst := by
  intro l
  induction l with
  | nil => intro d x h; exact Or.inl h
  | cons p l ih =>
    intro d x h
    simp only [List.foldl_cons] at h
    rcases ih _ x h with h1 | h1
    · rw [dictInsert_keys] at h1
      split at h1
      · exact Or.inl h1
      · rcases List.mem_append.mp h1 with h2 | h2
        · exact Or.inl h2
        · rcases List.mem_singleton.mp h2 with rfl
          exact Or.inr (by simp)
    · exact Or.inr (List.mem_map.mp h1 |>.elim (fun q hq =>
        List.mem_map.mpr ⟨q, List.mem_cons_of_mem p hq.1, hq.2⟩))

theorem buildDict_nodup (l : List (Str × ℚ)) :
    ((Backend.buildDict l).map Prod.fst).Nodup :=
  buildDictAux_nodup l [] (by simp)

theorem buildDict_keys_sub (l : List (Str × ℚ)) (x : Str)
    (h : x ∈ (Backend.buildDict l).map Prod.fst) : x ∈ l.map Prod.fst := by
  rcases buildDictAux_keys_sub l [] x h with h1 | h1
  · simp at h1
  · exact h1

theorem sentence_scores_keys_nodup (rowMeans : Option (List ℚ)) (sentences : List Str)
    (title : Str) :
    ((Backend.calculate_sentence_scores rowMeans sentences title).map Prod.fst).Nodup := by
  unfold Backend.calculate_sentence_scores
  cases rowMeans <;> exact buildDict_nodup _

theorem sentence_scores_keys_sub (rowMeans : Option (List ℚ)) (sentences : List Str)
    (title : Str) (x : Str)
    (h : x ∈ (Backend.calculate_sentence_scores rowMeans sentences title).map Prod.fst) :
    x ∈ sentences := by
  unfold Backend.calculate_sentence_scores at h
  cases rowMeans with
  | none =>
    have := buildDict_keys_sub _ _ h
    rw [List.map_map] at this
    simpa using this
  | some rows =>
    have hsub := buildDict_keys_sub _ _ h
    rw [List.map_map] at hsub
    have he : (Prod.fst ∘ fun p : ℕ × Str =>
        (p.2, if p.1 + (if title ≠ [] then 1 else 0) < rows.length
          then rows.getD (p.1 + (if title ≠ [] then 1 else 0)) 0 else 0))
        = Prod.snd := rfl
    rw [he] at hsub
    have he2 : List.map Prod.snd sentences.enum = sentences :=
      List.enumFrom_map_snd 0 sentences
    rw [he2] at hsub
    exact hsub

/-- C2: if at most `max_sentences` sentences survive preprocessing,
`extract_summary_offline` returns exactly those sentences joined in their
original order; and in the scoring path every sentence of the summary is
one of the preprocessed input sentences and the selected sentences appear
in strictly increasing original position. -/
theorem c2_summary_short_circuit_and_subset (rowMeans : Option (List ℚ))
    (sentTok : Str → List Str) (text title : Str) (maxS : ℕ) :
    ((Backend.preprocess_text sentTok text).length ≤ maxS →
      Backend.extract_summary_offline rowMeans sentTok text title maxS
        = Py.joinSpace (Backend.preprocess_text sentTok text))
    ∧ (maxS < (Backend.preprocess_text sentTok text).length →
        (∀ s ∈ Backend.extract_summary_list rowMeans sentTok text title maxS,
          s ∈ Backend.preprocess_text sentTok text)
        ∧ (Backend.extract_summary_list rowMeans sentTok text title maxS).Pairwise
            (fun a b => Py.index (Backend.preprocess_text sentTok text) a
              < Py.index (Backend.preprocess_text sentTok text) b)) := by
  set sentences := Backend.preprocess_text sentTok text with hsent
  constructor
  · intro hle
    unfold Backend.extract_summary_offline Backend.extract_summary_list
    rw [← hsent, if_pos hle]
  · intro hgt
    set scores := Backend.calculate_sentence_scores rowMeans sentences title with hscores
    set sorted := scores.mergeSort (fun a b => decide (b.2 ≤ a.2)) with hsorted
    set sel := (sorted.take maxS).map (fun p => p.1) with hselDef
    set leIdx : Str → Str → Bool := fun a b =>
      decide ((if a ∈ sentences then Py.index sentences a else 0)
        ≤ (if b ∈ sentences then Py.index sentences b else 0)) with hleIdx
    have hlist : Backend.extract_summary_list rowMeans sentTok text title maxS
        = sel.mergeSort leIdx := by
      unfold Backend.extract_summary_list
      rw [← hsent, if_neg (not_le.mpr hgt)]
    have hself_sub : ∀ x ∈ sel, x ∈ sentences := by
      intro x hx
      rcases List.mem_map.mp hx with ⟨p, hp, rfl⟩
      have hp2 : p ∈ sorted := (List.take_sublist _ _).subset hp
      have hp3 : p ∈ scores := (List.mergeSort_perm scores _).subset hp2
      exact sentence_scores_keys_sub rowMeans sentences title p.1
        (List.mem_map.mpr ⟨p, hp3, rfl⟩)
    have hsel_nodup : sel.Nodup := by
      have h1 : (scores.map Prod.fst).Nodup := sentence_scores_keys_nodup _ _ _
      have h2 : (sorted.map Prod.fst).Nodup :=
        (((List.mergeSort_perm scores _).map Prod.fst).nodup_iff).mpr h1
      exact List.Nodup.sublist ((List.take_sublist maxS sorted).map (f := Prod.fst)) h2
    have hmem : ∀ s ∈ Backend.extract_summary_list rowMeans sentTok text title maxS,
        s ∈ sentences := by
      intro s hs
      rw [hlist] at hs
      exact hself_sub s ((List.mergeSort_perm sel leIdx).subset hs)
    refine ⟨hmem, ?_⟩
    have htrans : ∀ a b c, leIdx a b → leIdx b c → leIdx a c := by
      intro a b c hab hbc
      simp only [hleIdx, decide_eq_true_eq] at hab hbc ⊢
      omega
    have htotal : ∀ a b, leIdx a b || leIdx b a := by
      intro a b
      simp only [hleIdx]
      by_cases h : (if a ∈ sentences then Py.index sentences a else 0)
          ≤ (if b ∈ sentences then Py.index sentences b else 0)
      · simp [h]
      · simp [le_of_not_le h]
    have hsortedIdx := List.sorted_mergeSort htrans htotal sel
    have hnodupFinal : (sel.mergeSort leIdx).Nodup :=
      ((List.mergeSort_perm sel leIdx).nodup_iff).mpr hsel_nodup
    rw [hlist]
    rw [List.pairwise_iff_forall_sublist]
    intro a b hab
    have hle := List.pairwise_iff_forall_sublist.mp hsortedIdx hab
    have hne : a ≠ b := List.pairwise_iff_forall_sublist.mp hnodupFinal hab
    have hma : a ∈ sentences := hmem a (by rw [hlist]; exact hab.subset (by simp))
    have hmb : b ∈ sentences := hmem b (by rw [hlist]; exact hab.subset (by simp))
    have hle2 : Py.index sentences a ≤ Py.index sentences b := by
      have := of_decide_eq_true hle
      rw [if_pos hma, if_pos hmb] at this
      exact this
    have hneIdx : Py.index sentences a ≠ Py.index sentences b := by
      intro he
      exact hne (py_index_inj hma hmb he)
    omega

/-- C2 witness: both branches at concrete inputs — a two-sentence text
under `max_sentences = 5` (short-circuit) and under `max_sentences = 1`
(scoring path with subset and order). -/
theorem c2_summary_short_circuit_and_subset_witness :
    ((Backend.preprocess_text
        (fun _ => ["one two three four five six".data, "alpha beta gamma delta epsilon zeta".data])
        "t".data).length ≤ 5
      ∧ Backend.extract_summary_offline (some [])
          (fun _ => ["one two three four five six".data, "alpha beta gamma delta epsilon zeta".data])
          "t".data [] 5
        = Py.joinSpace (Backend.preprocess_text
            (fun _ => ["one two three four five six".data, "alpha beta gamma delta epsilon zeta".data])
            "t".data))
    ∧ (1 < (Backend.preprocess_text
        (fun _ => ["one two three four five six".data, "alpha beta gamma delta epsilon zeta".data])
        "t".data).length
      ∧ (∀ s ∈ Backend.extract_summary_list (some [])
            (fun _ => ["one two three four five six".data, "alpha beta gamma delta epsilon zeta".data])
            "t".data [] 1,
          s ∈ Backend.preprocess_text
            (fun _ => ["one two three four five six".data, "alpha beta gamma delta epsilon zeta".data])
            "t".data)) :=
  ⟨⟨by decide,
    (c2_summary_short_circuit_and_subset (some [])
      (fun _ => ["one two three four five six".data, "alpha beta gamma delta epsilon zeta".data])
      "t".data [] 5).1 (by decide)⟩,
   ⟨by decide,
    ((c2_summary_short_circuit_and_subset (some [])
      (fun _ => ["one two three four five six".data, "alpha beta gamma delta epsilon zeta".data])
      "t".data [] 1).2 (by decide)).1⟩⟩

/-- C10: in the scoring path sentence scores live in a dict keyed by
sentence text, so the summary never repeats a sentence (`Nodup`); and at
a concrete input whose three preprocessed sentences are all the same
6-word text with `max_sentences = 2`, the dict collapses to one entry and
the summary has strictly fewer than `max_sentences` sentences. -/
theorem c10_dict_collapse (rowMeans : Option (List ℚ)) (sentTok : Str → List Str)
    (text title : Str) (maxS : ℕ) :
    (maxS < (Backend.preprocess_text sentTok text).length →
      (Backend.extract_summary_list rowMeans sentTok text title maxS).Nodup)
    ∧ ((Backend.preprocess_text (fun _ => ["go go go go go go".data,
          "go go go go go go".data, "go go go go go go".data]) "t".data).length = 3
      ∧ (Py.dedupFirst (Backend.preprocess_text (fun _ => ["go go go go go go".data,
          "go go go go go go".data, "go go go go go go".data]) "t".data)).length = 1
      ∧ (Backend.extract_summary_list (some []) (fun _ => ["go go go go go go".data,
          "go go go go go go".data, "go go go go go go".data]) "t".data [] 2).length = 1) := by
  constructor
  · intro hgt
    set sentences := Backend.preprocess_text sentTok text with hsent
    set scores := Backend.calculate_sentence_scores rowMeans sentences title with hscores
    set sorted := scores.mergeSort (fun a b => decide (b.2 ≤ a.2)) with hsorted
    set sel := (sorted.take maxS).map (fun p => p.1) with hselDef
    have hsel_nodup : sel.Nodup := by
      have h1 : (scores.map Prod.fst).Nodup := sentence_scores_keys_nodup _ _ _
      have h2 : (sorted.map Prod.fst).Nodup :=
        (((List.mergeSort_perm scores _).map Prod.fst).nodup_iff).mpr h1
      exact List.Nodup.sublist ((List.take_sublist maxS sorted).map (f := Prod.fst)) h2
    have hlist : Backend.extract_summary_list rowMeans sentTok text title maxS
        = sel.mergeSort (fun a b =>
          decide ((if a ∈ sentences then Py.index sentences a else 0)
            ≤ (if b ∈ sentences then Py.index sentences b else 0))) := by
      unfold Backend.extract_summary_list
      rw [← hsent, if_neg (not_le.mpr hgt)]
    rw [hlist]
    exact ((List.mergeSort_perm sel _).nodup_iff).mpr hsel_nodup
  · refine ⟨by decide, by decide, ?_⟩
    have hsent : Backend.preprocess_text (fun _ => ["go go go go go go".data,
        "go go go go go go".data, "go go go go go go".data]) "t".data
        = ["go go go go go go".data, "go go go go go go".data, "go go go go go go".data] := by
      decide
    have hscores : Backend.calculate_sentence_scores (some [])
        ["go go go go go go".data, "go go go go go go".data, "go go go go go go".data] []
        = [("go go go go go go".data, 0)] := by
      decide
    unfold Backend.extract_summary_list
    dsimp only
    rw [hsent]
    rw [if_neg (by decide)]
    rw [hscores, List.mergeSort_singleton]
    rw [show ([(("go go go go go go".data : Str), (0:ℚ))].take 2).map (fun p => p.1)
      = [("go go go go go go".data : Str)] from by decide]
    rw [List.mergeSort_singleton]
    decide

/-- C10 witness: the `Nodup` part applied at the concrete duplicate-heavy
input of the second part. -/
theorem c10_dict_collapse_witness :
    2 < (Backend.preprocess_text (fun _ => ["go go go go go go".data,
        "go go go go go go".data, "go go go go go go".data]) "t".data).length
    ∧ (Backend.extract_summary_list (some []) (fun _ => ["go go go go go go".data,
        "go go go go go go".data, "go go go go go go".data]) "t".data [] 2).Nodup :=
  ⟨by decide,
   (c10_dict_collapse (some []) (fun _ => ["go go go go go go".data,
      "go go go go go go".data, "go go go go go go".data]) "t".data [] 2).1 (by decide)⟩

/-- C8: `answer_question_offline` returns the fixed "could not
understand" message when the question yields no keywords; with keywords
but no positively-overlapping segment it returns the fixed "no relevant
information" message; and with some positive overlap it answers from a
segment of maximal keyword overlap via `answerFromSegment` (up to the
first 3 keyword-bearing sentences, else the first 500 characters plus an
ellipsis). -/
theorem c8_answer_question (wordTok sentTok : Str → List Str) (stopWords : List Str)
    (question : Str) (segments : List Backend.QSegment) :
    (Backend.questionKeywords wordTok stopWords question = [] →
      Backend.answer_question_offline wordTok sentTok stopWords question segments
        = Backend.msgNoUnderstand)
    ∧ (Backend.questionKeywords wordTok stopWords question ≠ [] →
      ((∀ seg ∈ segments, Backend.segOverlap wordTok
          (Backend.questionKeywords wordTok stopWords question) seg = 0) →
        Backend.answer_question_offline wordTok sentTok stopWords question segments
          = Backend.msgNoInfo)
      ∧ (∀ seg₀ ∈ segments,
          0 < Backend.segOverlap wordTok
            (Backend.questionKeywords wordTok stopWords question) seg₀ →
          ∃ best ∈ segments,
            0 < Backend.segOverlap wordTok
              (Backend.questionKeywords wordTok stopWords question) best
            ∧ (∀ seg ∈ segments, Backend.segOverlap wordTok
                (Backend.questionKeywords wordTok stopWords question) seg
                ≤ Backend.segOverlap wordTok
                  (Backend.questionKeywords wordTok stopWords question) best)
            ∧ Backend.answer_question_offline wordTok sentTok stopWords question segments
              = Backend.answerFromSegment wordTok sentTok
                  (Backend.questionKeywords wordTok stopWords question) best)) := by
  set qws := Backend.questionKeywords wordTok stopWords question with hq
  constructor
  · intro h
    unfold Backend.answer_question_offline
    rw [← hq, if_pos h]
  · intro hne
    have hL : (0 : ℚ) < (qws.length : ℚ) := by
      have : 0 < qws.length := List.length_pos.mpr hne
      exact_mod_cast this
    constructor
    · intro hzero
      unfold Backend.answer_question_offline
      rw [← hq, if_neg hne]
      have hc : segments.filterMap (fun seg =>
          if 0 < Backend.segOverlap wordTok qws seg
          then some (seg, ((Backend.segOverlap wordTok qws seg : ℚ) / (qws.length : ℚ)))
          else none) = [] := by
        apply List.filterMap_eq_nil_iff.mpr
        intro seg hseg
        rw [hzero seg hseg]
        simp
      rw [hc]
      rfl
    · intro seg₀ hseg₀ hpos
      unfold Backend.answer_question_offline
      rw [← hq, if_neg hne]
      set f : Backend.QSegment → Option (Backend.QSegment × ℚ) := fun seg =>
        if 0 < Backend.segOverlap wordTok qws seg
        then some (seg, ((Backend.segOverlap wordTok qws seg : ℚ) / (qws.length : ℚ)))
        else none with hf
      set cands := segments.filterMap f with hcands
      have hmem₀ : (seg₀, ((Backend.segOverlap wordTok qws seg₀ : ℚ) / (qws.length : ℚ)))
          ∈ cands := by
        rw [hcands]
        exact List.mem_filterMap.mpr ⟨seg₀, hseg₀, by rw [hf]; simp [hpos]⟩
      have hcne : cands ≠ [] := List.ne_nil_of_mem hmem₀
      rw [if_neg hcne]
      have hperm := List.mergeSort_perm cands (fun a b => decide (b.2 ≤ a.2))
      have hsne : cands.mergeSort (fun a b => decide (b.2 ≤ a.2)) ≠ [] := by
        intro hnil
        have := hperm.length_eq
        rw [hnil] at this
        exact hcne (List.length_eq_zero.mp this.symm)
      have hchar : ∀ p ∈ cands, p.1 ∈ segments ∧ 0 < Backend.segOverlap wordTok qws p.1
          ∧ p.2 = ((Backend.segOverlap wordTok qws p.1 : ℚ) / (qws.length : ℚ)) := by
        intro p hp
        rw [hcands] at hp
        rcases List.mem_filterMap.mp hp with ⟨seg, hseg, hfs⟩
        rw [hf] at hfs
        dsimp only at hfs
        by_cases h0 : 0 < Backend.segOverlap wordTok qws seg
        · rw [if_pos h0] at hfs
          cases hfs
          exact ⟨hseg, h0, rfl⟩
        · rw [if_neg h0] at hfs
          cases hfs
      cases hs : cands.mergeSort (fun a b => decide (b.2 ≤ a.2)) with
      | nil => exact absurd hs hsne
      | cons b t =>
        have hbmem : b ∈ cands := hperm.subset (by rw [hs]; simp)
        obtain ⟨hbseg, hbov, hbscore⟩ := hchar b hbmem
        refine ⟨b.1, hbseg, hbov, ?_, ?_⟩
        · intro seg hseg
          by_cases h0 : 0 < Backend.segOverlap wordTok qws seg
          · have hm : (seg, ((Backend.segOverlap wordTok qws seg : ℚ) / (qws.length : ℚ)))
                ∈ cands := by
              rw [hcands]
              exact List.mem_filterMap.mpr ⟨seg, hseg, by rw [hf]; simp [h0]⟩
            have hmsorted := (hperm.symm.subset hm)
            rw [hs] at hmsorted
            have hscore : ((Backend.segOverlap wordTok qws seg : ℚ) / (qws.length : ℚ))
                ≤ b.2 := by
              rcases List.mem_cons.mp hmsorted with heq | hmt
              · rw [← heq]
              · have hpw : (cands.mergeSort
                    (fun a b : Backend.QSegment × ℚ => decide (b.2 ≤ a.2))).Pairwise
                    (fun a b : Backend.QSegment × ℚ => decide (b.2 ≤ a.2)) :=
                  List.sorted_mergeSort
                    (fun a b c hab hbc => by
                      simp only [decide_eq_true_eq] at hab hbc ⊢
                      exact le_trans hbc hab)
                    (fun a b => by
                      by_cases h : a.2 ≤ b.2
                      · simp [h]
                      · simp [le_of_not_le h])
                    cands
                rw [hs] at hpw
                have := (List.pairwise_cons.mp hpw).1 _ hmt
                exact of_decide_eq_true this
            rw [hbscore] at hscore
            have := (div_le_div_iff_of_pos_right hL).mp hscore
            exact_mod_cast this
          · omega
        · rfl

/-- C8 witness: with keywords `{what, is, capital, of, nowhere}` and a
single segment with no overlap, the fixed "no relevant information"
message is returned. -/
theorem c8_answer_question_witness :
    Backend.questionKeywords Py.splitWs ["the".data] "What is the capital of nowhere?".data ≠ []
    ∧ (∀ seg ∈ [(⟨"zzz yyy".data⟩ : Backend.QSegment)],
        Backend.segOverlap Py.splitWs
          (Backend.questionKeywords Py.splitWs ["the".data]
            "What is the capital of nowhere?".data) seg = 0)
    ∧ Backend.answer_question_offline Py.splitWs (fun s => [s]) ["the".data]
        "What is the capital of nowhere?".data [⟨"zzz yyy".data⟩]
      = Backend.msgNoInfo :=
  ⟨by decide, by decide,
   ((c8_answer_question Py.splitWs (fun s => [s]) ["the".data]
      "What is the capital of nowhere?".data [⟨"zzz yyy".data⟩]).2 (by decide)).1 (by decide)⟩

theorem dedupFirstF_congr [DecidableEq α] :
    ∀ (fuel fuel' : ℕ) (l : List α), l.length ≤ fuel → l.length ≤ fuel' →
    Py.dedupFirstF fuel l = Py.dedupFirstF fuel' l := by
  intro fuel
  induction fuel with
  | zero =>
    intro fuel' l h _
    have : l = [] := List.length_eq_zero.mp (Nat.le_zero.mp h)
    subst this
    cases fuel' <;> rfl
  | succ fuel ih =>
    intro fuel' l h h'
    cases l with
    | nil => cases fuel' <;> rfl
    | cons a as =>
      cases fuel' with
      | zero => simp at h'
      | succ fuel'' =>
        simp only [Py.dedupFirstF, List.cons.injEq, true_and]
        have hlen := List.length_filter_le (fun b => decide ¬ b = a) as
        simp only [List.length_cons] at h h'
        exact ih fuel'' _ (by omega) (by omega)

theorem dedupFirst_cons [DecidableEq α] (a : α) (as : List α) :
    Py.dedupFirst (a :: as) = a :: Py.dedupFirst (as.filter (fun b => ¬ b = a)) := by
  unfold Py.dedupFirst
  simp only [List.length_cons, Py.dedupFirstF, List.cons.injEq, true_and]
  have hlen := List.length_filter_le (fun b => decide ¬ b = a) as
  exact dedupFirstF_congr _ _ _ (by omega) (by omega)

theorem dedupFirstF_subset [DecidableEq α] :
    ∀ (fuel : ℕ) (l : List α) (x : α), x ∈ Py.dedupFirstF fuel l → x ∈ l := by
  intro fuel
  induction fuel with
  | zero => intro l x h; simp [Py.dedupFirstF] at h
  | succ fuel ih =>
    intro l x h
    cases l with
    | nil => simp [Py.dedupFirstF] at h
    | cons a as =>
      simp only [Py.dedupFirstF] at h
      rcases List.mem_cons.mp h with rfl | hm
      · exact List.mem_cons_self _ _
      · exact List.mem_cons_of_mem a ((List.filter_sublist as).subset (ih _ x hm))

theorem dedupFirst_subset [DecidableEq α] (l : List α) (x : α)
    (h : x ∈ Py.dedupFirst l) : x ∈ l :=
  dedupFirstF_subset _ _ _ h

theorem maxBy_mem [LinearOrder β] (f : α → β) :
    ∀ (l : List α) (m : α), Py.maxBy f l = some m → m ∈ l := by
  intro l
  induction l with
  | nil => intro m h; simp [Py.maxBy] at h
  | cons a as ih =>
    intro m h
    simp only [Py.maxBy] at h
    cases hm : Py.maxBy f as with
    | none =>
      rw [hm] at h
      cases h
      exact List.mem_cons_self _ _
    | some m' =>
      rw [hm] at h
      dsimp only at h
      by_cases hgt : f m' > f a
      · rw [if_pos hgt] at h
        cases h
        exact List.mem_cons_of_mem a (ih _ hm)
      · rw [if_neg hgt] at h
        cases h
        exact List.mem_cons_self _ _

theorem maxBy_isSome [LinearOrder β] (f : α → β) (l : List α) (h : l ≠ []) :
    (Py.maxBy f l).isSome := by
  cases l with
  | nil => exact absurd rfl h
  | cons a as =>
    simp only [Py.maxBy]
    cases Py.maxBy f as with
    | none => rfl
    | some m => by_cases hgt : f m > f a <;> simp [hgt]

theorem classifyLevel_title_iff (body : ℚ) (ln : Round1A.Line) :
    Round1A.classifyLevel body ln = some "TITLE".data ↔ Round1A.isTitleLine body ln = true := by
  unfold Round1A.classifyLevel Round1A.isTitleLine
  by_cases h18 : ln.size / body ≥ 1.8
  · simp [h18]
  · rw [if_neg h18]
    simp only [decide_eq_true_eq]
    constructor
    · intro h
      exfalso
      split at h
      · exact absurd (Option.some_inj.mp h) (by decide)
      · split at h
        · exact absurd (Option.some_inj.mp h) (by decide)
        · split at h
          · exact absurd (Option.some_inj.mp h) (by decide)
          · exact Option.noConfusion h
    · intro h
      exact absurd h h18

theorem classifyGo_titleSet (body : ℚ) :
    ∀ (lines : List Round1A.Line) (t : Str),
    Round1A.classifyGo body lines (some t)
      = (some t, lines.filterMap (Round1A.entryOf body)) := by
  intro lines
  induction lines with
  | nil => intro t; rfl
  | cons ln rest ih =>
    intro t
    simp only [Round1A.classifyGo, List.filterMap_cons]
    cases hl : Round1A.classifyLevel body ln with
    | none => simp [Round1A.entryOf, hl, ih t]
    | some lvl =>
      dsimp only
      rw [if_neg (by simp)]
      simp [Round1A.entryOf, hl, ih t]

theorem classifyGo_noTitle (body : ℚ) :
    ∀ (lines : List Round1A.Line),
    Round1A.classifyGo body lines none
      = ((lines.find? (Round1A.isTitleLine body)).map (fun ln => ln.text),
         (lines.eraseP (Round1A.isTitleLine body)).filterMap (Round1A.entryOf body)) := by
  intro lines
  induction lines with
  | nil => rfl
  | cons ln rest ih =>
    simp only [Round1A.classifyGo]
    cases hT : Round1A.isTitleLine body ln
    · have hnT : Round1A.classifyLevel body ln ≠ some "TITLE".data := by
        intro h
        rw [(classifyLevel_title_iff body ln).mp h] at hT
        cases hT
      rw [List.find?_cons_of_neg _ (by simp [hT]), List.eraseP_cons_of_neg (by simp [hT])]
      cases hl : Round1A.classifyLevel body ln with
      | none =>
        dsimp only
        rw [ih]
        simp [Round1A.entryOf, hl]
      | some lvl =>
        have hlvl0 : ¬ lvl = "TITLE".data := by
          intro hq
          exact hnT (by rw [hl, hq])
        dsimp only
        rw [if_neg (by simp [hlvl0]), ih]
        simp [Round1A.entryOf, hl]
    · have hTlvl : Round1A.classifyLevel body ln = some "TITLE".data :=
        (classifyLevel_title_iff body ln).mpr hT
      rw [hTlvl]
      dsimp only
      rw [if_pos (by simp)]
      rw [List.find?_cons_of_pos _ hT, List.eraseP_cons_of_pos hT]
      rw [classifyGo_titleSet]
      simp

/-- C6 (amended): for every non-empty list of lines with positive sizes,
the body size is `statistics.mode` of the sizes under Python ≥ 3.8
semantics — the most frequent size with ties broken by first encounter,
the median fallback being unreachable — and it is one of the input sizes;
the first line with `size/body ≥ 1.8` becomes the title; every other
classified line is appended to the outline in order, a later title-sized
line keeping the literal level string `"TITLE"` (not demoted to H1); the
cascade is ≥1.8 title, ≥1.4 H1, ≥1.2 H2, ≥1.05-or-bold H3, else
discarded; and emitted page numbers are the 0-indexed span pages plus
one. -/
theorem pyMode_mem (l : List ℚ) (h : l ≠ []) : Round1A.pyMode l ∈ l := by
  unfold Round1A.pyMode
  have hne2 : Py.dedupFirst l ≠ [] := by
    cases hl : l with
    | nil => exact absurd hl h
    | cons a as =>
      rw [dedupFirst_cons]
      simp
  have hsome := maxBy_isSome (fun v => l.count v) _ hne2
  cases hm : Py.maxBy (fun v => l.count v) (Py.dedupFirst l) with
  | none => rw [hm] at hsome; cases hsome
  | some v =>
    dsimp only
    exact dedupFirst_subset _ _ (maxBy_mem _ _ _ hm)

theorem c6_classify_headings_amended (lines : List Round1A.Line)
    (hne : lines ≠ []) (hpos : ∀ ln ∈ lines, 0 < ln.size) :
    ∃ body : ℚ, body = Round1A.pyMode (lines.map (fun ln => ln.size))
      ∧ 0 < body
      ∧ Round1A.classify_headings lines
        = some ((lines.find? (Round1A.isTitleLine body)).map (fun ln => ln.text),
            (lines.eraseP (Round1A.isTitleLine body)).filterMap (Round1A.entryOf body)) := by
  have hmem : Round1A.pyMode (lines.map (fun ln => ln.size))
      ∈ lines.map (fun ln => ln.size) :=
    pyMode_mem _ (by
      intro hq
      exact hne (List.map_eq_nil_iff.mp hq))
  have hbpos : 0 < Round1A.pyMode (lines.map (fun ln => ln.size)) := by
    rcases List.mem_map.mp hmem with ⟨ln, hln, hsz⟩
    rw [← hsz]
    exact hpos ln hln
  refine ⟨Round1A.pyMode (lines.map (fun ln => ln.size)), rfl, hbpos, ?_⟩
  unfold Round1A.classify_headings
  rw [if_neg hne]
  rw [if_neg (ne_of_gt hbpos)]
  rw [classifyGo_noTitle]

/-- The first C6 counterexample input: two 18-point lines over a 10-point
body (unique mode 10). -/
def c6ex1 : List Round1A.Line :=
  [⟨0, "Big One".data, 18, false⟩, ⟨0, "Big Two".data, 18, false⟩,
   ⟨0, "Body1".data, 10, false⟩, ⟨0, "Body2".data, 10, false⟩,
   ⟨0, "Body3".data, 10, false⟩]

/-- The second C6 counterexample input: sizes `[10, 12]`, no unique mode. -/
def c6ex2 : List Round1A.Line :=
  [⟨0, "A".data, 10, false⟩, ⟨0, "B".data, 12, false⟩]

/-- C6 (counterexample).  Two concrete line lists refute the claim as
stated.  First, on `c6ex1` the second 18-point line is appended to the
outline with the literal level `"TITLE"`, not demoted to `"H1"`.  Second,
on `c6ex2` there is no unique mode: `statistics.mode` on Python ≥ 3.8
returns the first value 10 (so the 12-point line classifies as H2 at
ratio 1.2), while the claim's median-fallback body size 11 would classify
it as H3 (ratio 12/11). -/
theorem c6_classify_claim_counterexample :
    Round1A.classify_headings c6ex1 ≠ Round1A.classify_headings_spec c6ex1
    ∧ Round1A.classify_headings c6ex2 ≠ Round1A.classify_headings_spec c6ex2 := by
  have hA : Round1A.classifyLevel 10 ⟨0, "Big One".data, 18, false⟩
      = some "TITLE".data := by
    norm_num [Round1A.classifyLevel]
  have hB : Round1A.classifyLevel 10 ⟨0, "Big Two".data, 18, false⟩
      = some "TITLE".data := by
    norm_num [Round1A.classifyLevel]
  have hbody : ∀ (t : Str), Round1A.classifyLevel 10 ⟨0, t, 10, false⟩ = none := by
    intro t
    norm_num [Round1A.classifyLevel]
  have hmode1 : Round1A.pyMode [18, 18, 10, 10, 10] = 10 := by decide
  have hmode1s : Round1A.pyModeSpec [18, 18, 10, 10, 10] = 10 := by decide
  have hgo1 : Round1A.classifyGo 10 c6ex1 none
      = (some "Big One".data, [⟨"TITLE".data, "Big Two".data, 1⟩]) := by
    simp [c6ex1, Round1A.classifyGo, hA, hB, hbody]
  have hgo1s : Round1A.classifyGoSpec 10 c6ex1 none
      = (some "Big One".data, [⟨"H1".data, "Big Two".data, 1⟩]) := by
    simp [c6ex1, Round1A.classifyGoSpec, hA, hB, hbody]
  have hA2 : Round1A.classifyLevel 10 ⟨0, "A".data, 10, false⟩ = none := hbody _
  have hB2 : Round1A.classifyLevel 10 ⟨0, "B".data, 12, false⟩ = some "H2".data := by
    norm_num [Round1A.classifyLevel]
  have hA2s : Round1A.classifyLevel 11 ⟨0, "A".data, 10, false⟩ = none := by
    norm_num [Round1A.classifyLevel]
  have hB2s : Round1A.classifyLevel 11 ⟨0, "B".data, 12, false⟩ = some "H3".data := by
    norm_num [Round1A.classifyLevel]
  have hmode2 : Round1A.pyMode [10, 12] = 10 := by decide
  have hmed2 : Round1A.pyMedian [10, 12] = 11 := by
    unfold Round1A.pyMedian
    rw [List.mergeSort_of_sorted (by decide)]
    norm_num
  have hmode2s : Round1A.pyModeSpec [10, 12] = 11 := by
    unfold Round1A.pyModeSpec
    rw [if_neg (show ¬ (((Py.dedupFirst [(10:ℚ), 12]).filter
      (fun v => [(10:ℚ), 12].count v
        = ((Py.dedupFirst [(10:ℚ), 12]).map (fun v => [(10:ℚ), 12].count v)).foldr max 0)).length = 1)
      from by decide)]
    exact hmed2
  have hgo2 : Round1A.classifyGo 10 c6ex2 none
      = (none, [⟨"H2".data, "B".data, 1⟩]) := by
    simp [c6ex2, Round1A.classifyGo, hA2, hB2]
  have hgo2s : Round1A.classifyGoSpec 11 c6ex2 none
      = (none, [⟨"H3".data, "B".data, 1⟩]) := by
    simp [c6ex2, Round1A.classifyGoSpec, hA2s, hB2s]
  have hc1 : Round1A.classify_headings c6ex1
      = some (some "Big One".data, [⟨"TITLE".data, "Big Two".data, 1⟩]) := by
    unfold Round1A.classify_headings
    rw [if_neg (show ¬ (c6ex1 = []) from by decide)]
    dsimp only
    rw [show List.map (fun ln => ln.size) c6ex1 = [18, 18, 10, 10, 10] from rfl, hmode1]
    rw [if_neg (show ¬ ((10 : ℚ) = 0) from by norm_num)]
    rw [hgo1]
  have hc1s : Round1A.classify_headings_spec c6ex1
      = some (some "Big One".data, [⟨"H1".data, "Big Two".data, 1⟩]) := by
    unfold Round1A.classify_headings_spec
    rw [if_neg (show ¬ (c6ex1 = []) from by decide)]
    dsimp only
    rw [show List.map (fun ln => ln.size) c6ex1 = [18, 18, 10, 10, 10] from rfl, hmode1s]
    rw [if_neg (show ¬ ((10 : ℚ) = 0) from by norm_num)]
    rw [hgo1s]
  have hc2 : Round1A.classify_headings c6ex2
      = some (none, [⟨"H2".data, "B".data, 1⟩]) := by
    unfold Round1A.classify_headings
    rw [if_neg (show ¬ (c6ex2 = []) from by decide)]
    dsimp only
    rw [show List.map (fun ln => ln.size) c6ex2 = [10, 12] from rfl, hmode2]
    rw [if_neg (show ¬ ((10 : ℚ) = 0) from by norm_num)]
    rw [hgo2]
  have hc2s : Round1A.classify_headings_spec c6ex2
      = some (none, [⟨"H3".data, "B".data, 1⟩]) := by
    unfold Round1A.classify_headings_spec
    rw [if_neg (show ¬ (c6ex2 = []) from by decide)]
    dsimp only
    rw [show List.map (fun ln => ln.size) c6ex2 = [10, 12] from rfl, hmode2s]
    rw [if_neg (show ¬ ((11 : ℚ) = 0) from by norm_num)]
    rw [hgo2s]
  constructor
  · rw [hc1, hc1s]
    decide
  · rw [hc2, hc2s]
    decide

/-- C6 witness: the amended characterization applied at the concrete
five-line input `c6ex1`. -/
theorem c6_classify_headings_amended_witness :
    c6ex1 ≠ [] ∧ (∀ ln ∈ c6ex1, 0 < ln.size)
    ∧ (∃ body : ℚ, body = Round1A.pyMode (c6ex1.map (fun ln => ln.size))
        ∧ 0 < body
        ∧ Round1A.classify_headings c6ex1
          = some ((c6ex1.find? (Round1A.isTitleLine body)).map (fun ln => ln.text),
              (c6ex1.eraseP (Round1A.isTitleLine body)).filterMap (Round1A.entryOf body))) :=
  ⟨by decide, by decide,
   c6_classify_headings_amended c6ex1 (by decide) (by decide)⟩

/-- The order the sort key induces on the page+line keys alone. -/
def lineKeyLE (k k' : ℕ × ℕ) : Prop :=
  k.1 < k'.1 ∨ (k.1 = k'.1 ∧ k.2 ≤ k'.2)

theorem lineKeyLE_trans {a b c : ℕ × ℕ} (h1 : lineKeyLE a b) (h2 : lineKeyLE b c) :
    lineKeyLE a c := by
  unfold lineKeyLE at *
  omega

theorem lineKeyLE_antisymm {a b : ℕ × ℕ} (h1 : lineKeyLE a b) (h2 : lineKeyLE b a) :
    a = b := by
  unfold lineKeyLE at *
  have : a.1 = b.1 ∧ a.2 = b.2 := by omega
  exact Prod.ext this.1 this.2

theorem spanLE_to_lineKeyLE {a b : Round1A.Span} (h : Round1A.spanLE a b = true) :
    lineKeyLE a.line b.line := by
  have := of_decide_eq_true h
  unfold lineKeyLE
  omega

theorem pyGroupByF_congr (f : Round1A.Span → ℕ × ℕ) :
    ∀ (fuel fuel' : ℕ) (l : List Round1A.Span), l.length ≤ fuel → l.length ≤ fuel' →
    Round1A.pyGroupByF f fuel l = Round1A.pyGroupByF f fuel' l := by
  intro fuel
  induction fuel with
  | zero =>
    intro fuel' l h _
    have : l = [] := List.length_eq_zero.mp (Nat.le_zero.mp h)
    subst this
    cases fuel' <;> rfl
  | succ fuel ih =>
    intro fuel' l h h'
    cases l with
    | nil => cases fuel' <;> rfl
    | cons a as =>
      cases fuel' with
      | zero => simp at h'
      | succ fuel'' =>
        simp only [Round1A.pyGroupByF, List.cons.injEq, true_and]
        have hlen := (List.dropWhile_sublist
          (l := as) (fun b => decide (f b = f a))).length_le
        simp only [List.length_cons] at h h'
        exact ih fuel'' _ (by omega) (by omega)

theorem pyGroupBy_cons (f : Round1A.Span → ℕ × ℕ) (a : Round1A.Span)
    (as : List Round1A.Span) :
    Round1A.pyGroupBy f (a :: as)
      = (a :: as.takeWhile (fun b => f b = f a))
        :: Round1A.pyGroupBy f (as.dropWhile (fun b => f b = f a)) := by
  unfold Round1A.pyGroupBy
  simp only [List.length_cons, Round1A.pyGroupByF, List.cons.injEq, true_and]
  have hlen := (List.dropWhile_sublist (l := as) (fun b => decide (f b = f a))).length_le
  exact pyGroupByF_congr f _ _ _ (by omega) (by omega)

theorem list_filterMap_eq_map_of_forall {f : α → Option β} {h : α → β} :
    ∀ {l : List α}, (∀ x ∈ l, f x = some (h x)) → l.filterMap f = l.map h := by
  intro l
  induction l with
  | nil => intro _; rfl
  | cons a as ih =>
    intro hall
    rw [List.filterMap_cons, hall a (List.mem_cons_self a as), List.map_cons,
      ih (fun x hx => hall x (List.mem_cons_of_mem a hx))]

theorem pyGroupBy_sorted_eq :
    ∀ (n : ℕ) (l : List Round1A.Span), l.length ≤ n →
    List.Pairwise (fun a b => lineKeyLE a.line b.line) l →
    Round1A.pyGroupBy (fun s => s.line) l
      = (Py.dedupFirst (l.map (fun s => s.line))).map
          (fun k => l.filter (fun s => s.line = k)) := by
  intro n
  induction n with
  | zero =>
    intro l h _
    have : l = [] := List.length_eq_zero.mp (Nat.le_zero.mp h)
    subst this
    rfl
  | succ n ih =>
    intro l hlen hpw
    cases l with
    | nil => rfl
    | cons a as =>
      have hstep : ∀ x ∈ as, lineKeyLE a.line x.line := (List.pairwise_cons.mp hpw).1
      have hpw_as : List.Pairwise (fun x y : Round1A.Span => lineKeyLE x.line y.line) as :=
        (List.pairwise_cons.mp hpw).2
      have htd : as.takeWhile (fun b => decide (b.line = a.line))
          ++ as.dropWhile (fun b => decide (b.line = a.line)) = as :=
        List.takeWhile_append_dropWhile _ _
      have hmem_t : ∀ x ∈ as.takeWhile (fun b => decide (b.line = a.line)),
          x.line = a.line := by
        intro x hx
        have hpx := List.mem_takeWhile_imp hx
        exact of_decide_eq_true hpx
      have hd_sub : List.Sublist (as.dropWhile (fun b => decide (b.line = a.line))) as :=
        List.dropWhile_sublist _
      have hmem_d : ∀ x ∈ as.dropWhile (fun b => decide (b.line = a.line)),
          ¬ x.line = a.line := by
        cases hdc : as.dropWhile (fun b => decide (b.line = a.line)) with
        | nil => intro x hx; cases hx
        | cons h0 d' =>
          have hh0 : ¬ h0.line = a.line := by
            have hnot := List.head?_dropWhile_not (fun b => decide (b.line = a.line)) as
            rw [hdc] at hnot
            simp only [List.head?_cons] at hnot
            exact of_decide_eq_false hnot
          have hpw_d : List.Pairwise (fun x y : Round1A.Span => lineKeyLE x.line y.line)
              (h0 :: d') := by
            rw [← hdc]
            exact hpw_as.sublist hd_sub
          have hah0 : lineKeyLE a.line h0.line := by
            apply hstep
            apply hd_sub.subset
            rw [hdc]
            exact List.mem_cons_self _ _
          intro x hx heq
          rcases List.mem_cons.mp hx with rfl | hx2
          · exact hh0 heq
          · have hh0x : lineKeyLE h0.line x.line :=
              (List.pairwise_cons.mp hpw_d).1 x hx2
            rw [heq] at hh0x
            exact hh0 (lineKeyLE_antisymm hh0x hah0)
      have hF3 : (a :: as).filter (fun s => decide (s.line = a.line))
          = a :: as.takeWhile (fun b => decide (b.line = a.line)) := by
        rw [List.filter_cons_of_pos (by simp)]
        congr 1
        conv_lhs => rw [← htd]
        rw [List.filter_append,
          List.filter_eq_self.mpr (fun x hx => decide_eq_true (hmem_t x hx)),
          List.filter_eq_nil_iff.mpr (fun x hx => by simp [hmem_d x hx]),
          List.append_nil]
      have hF5 : (as.map (fun s => s.line)).filter (fun b => decide (¬ b = a.line))
          = (as.dropWhile (fun b => decide (b.line = a.line))).map (fun s => s.line) := by
        conv_lhs => rw [← htd]
        rw [List.map_append, List.filter_append]
        have h1 : ((as.takeWhile (fun b => decide (b.line = a.line))).map
            (fun s => s.line)).filter (fun b => decide (¬ b = a.line)) = [] := by
          apply List.filter_eq_nil_iff.mpr
          intro b hb
          rcases List.mem_map.mp hb with ⟨x, hx, rfl⟩
          simp [hmem_t x hx]
        have h2 : ((as.dropWhile (fun b => decide (b.line = a.line))).map
            (fun s => s.line)).filter (fun b => decide (¬ b = a.line))
            = (as.dropWhile (fun b => decide (b.line = a.line))).map (fun s => s.line) := by
          apply List.filter_eq_self.mpr
          intro b hb
          rcases List.mem_map.mp hb with ⟨x, hx, rfl⟩
          simp [hmem_d x hx]
        rw [h1, h2, List.nil_append]
      have hd_len : (as.dropWhile (fun b => decide (b.line = a.line))).length ≤ n := by
        have h1 := hd_sub.length_le
        simp only [List.length_cons] at hlen
        omega
      have hIH := ih (as.dropWhile (fun b => decide (b.line = a.line))) hd_len
        (hpw_as.sublist hd_sub)
      have hF6 : ∀ k ∈ Py.dedupFirst ((as.dropWhile
            (fun b => decide (b.line = a.line))).map (fun s => s.line)),
          (a :: as).filter (fun s => decide (s.line = k))
            = (as.dropWhile (fun b => decide (b.line = a.line))).filter
                (fun s => decide (s.line = k)) := by
        intro k hk
        rcases List.mem_map.mp (dedupFirst_subset _ _ hk) with ⟨w, hw, hwk⟩
        have hka : ¬ a.line = k := by
          intro he
          exact hmem_d w hw (by rw [hwk, ← he])
        rw [List.filter_cons_of_neg (by simp [hka])]
        conv_lhs => rw [← htd]
        rw [List.filter_append]
        have h1 : (as.takeWhile (fun b => decide (b.line = a.line))).filter
            (fun s => decide (s.line = k)) = [] := by
          apply List.filter_eq_nil_iff.mpr
          intro x hx
          have hxa := hmem_t x hx
          simp only [decide_eq_true_eq]
          intro he
          exact hka (by rw [← hxa, he])
        rw [h1, List.nil_append]
      rw [pyGroupBy_cons, List.map_cons, dedupFirst_cons, List.map_cons, hF5, hF3, hIH]
      congr 1
      exact (List.map_congr_left hF6).symm

theorem strip_all_ws {s : Str} (h : Py.strip s = []) : ∀ c ∈ s, Py.isWs c := by
  unfold Py.strip at h
  rw [List.reverse_eq_nil_iff] at h
  have hdrop : ∀ c ∈ s.dropWhile Py.isWs, Py.isWs c := by
    intro c hc
    have := List.dropWhile_eq_nil_iff.mp h c (List.mem_reverse.mpr hc)
    exact this
  intro c hc
  rw [← List.takeWhile_append_dropWhile (p := Py.isWs) (l := s)] at hc
  rcases List.mem_append.mp hc with hc1 | hc2
  · exact List.mem_takeWhile_imp hc1
  · exact hdrop c hc2

theorem mem_joinSpace :
    ∀ (parts : List Str) (p : Str), p ∈ parts → ∀ c ∈ p, c ∈ Py.joinSpace parts := by
  intro parts
  induction parts with
  | nil => intro p hp; cases hp
  | cons q rest ih =>
    intro p hp c hc
    cases rest with
    | nil =>
      rcases List.mem_singleton.mp hp with rfl
      exact hc
    | cons r rest' =>
      show c ∈ q ++ ' ' :: Py.joinSpace (r :: rest')
      rcases List.mem_cons.mp hp with rfl | hp'
      · exact List.mem_append.mpr (Or.inl hc)
      · exact List.mem_append.mpr (Or.inr (List.mem_cons_of_mem _ (ih p hp' c hc)))

theorem mkLine_eq_mkLineA (group : List Round1A.Span) (hne : group ≠ [])
    (hws : ∃ s ∈ group, ∃ c ∈ s.text, ¬ Py.isWs c) :
    Round1A.mkLine? group = some (Round1A.mkLineA group) := by
  have htext : Py.strip (Py.joinSpace (group.map (fun s => s.text))) ≠ [] := by
    intro hnil
    rcases hws with ⟨s, hs, c, hc, hcws⟩
    exact hcws (strip_all_ws hnil c
      (mem_joinSpace _ s.text (List.mem_map.mpr ⟨s, hs, rfl⟩) c hc))
  have hsome := maxBy_isSome (fun s : Round1A.Span => s.size) group hne
  unfold Round1A.mkLine? Round1A.mkLineA
  rw [if_neg htext]
  cases hm : Py.maxBy (fun s : Round1A.Span => s.size) group with
  | none => rw [hm] at hsome; cases hsome
  | some ref => rfl

/-- C7 (amended): `merge_lines` produces, for each distinct page+line key
in sorted order, exactly one logical line whose text is the span texts of
that key joined with spaces in x-position order (then stripped), whose
size is the maximum span size of the group, and whose bold flag — and
page — are those of the *first maximal-size span* of the group (not the
OR of all bold flags); the hypothesis that every span has some
non-whitespace text mirrors the guarantee `extract_spans` provides. -/
theorem c7_merge_lines_amended (spans : List Round1A.Span)
    (h : ∀ s ∈ spans, ∃ c ∈ s.text, ¬ Py.isWs c) :
    Round1A.merge_lines spans
      = (Py.dedupFirst ((spans.mergeSort Round1A.spanLE).map (fun s => s.line))).map
          (fun k => Round1A.mkLineA
            ((spans.mergeSort Round1A.spanLE).filter (fun s => s.line = k))) := by
  by_cases hsp : spans = []
  · subst hsp
    rw [List.mergeSort_nil]
    rfl
  · unfold Round1A.merge_lines
    rw [if_neg hsp]
    have htrans : ∀ (a b c : Round1A.Span),
        Round1A.spanLE a b → Round1A.spanLE b c → Round1A.spanLE a c := by
      intro a b c hab hbc
      have h1 := of_decide_eq_true hab
      have h2 := of_decide_eq_true hbc
      apply decide_eq_true
      rcases h1 with h1 | ⟨h1e, h1r⟩ <;> rcases h2 with h2 | ⟨h2e, h2r⟩
      · exact Or.inl (by omega)
      · exact Or.inl (by omega)
      · exact Or.inl (by omega)
      · rcases h1r with h1r | ⟨h1re, h1rx⟩ <;> rcases h2r with h2r | ⟨h2re, h2rx⟩
        · exact Or.inr ⟨by omega, Or.inl (by omega)⟩
        · exact Or.inr ⟨by omega, Or.inl (by omega)⟩
        · exact Or.inr ⟨by omega, Or.inl (by omega)⟩
        · exact Or.inr ⟨by omega, Or.inr ⟨by omega, le_trans h1rx h2rx⟩⟩
    have hkey : ∀ (a b : Round1A.Span),
        ¬ (a.line.1 < b.line.1 ∨ (a.line.1 = b.line.1 ∧ (a.line.2 < b.line.2
          ∨ (a.line.2 = b.line.2 ∧ a.x ≤ b.x)))) →
        (b.line.1 < a.line.1 ∨ (b.line.1 = a.line.1 ∧ (b.line.2 < a.line.2
          ∨ (b.line.2 = a.line.2 ∧ b.x ≤ a.x)))) := by
      intro a b hn
      rcases Nat.lt_trichotomy a.line.1 b.line.1 with h1 | h1 | h1
      · exact absurd (Or.inl h1) hn
      · rcases Nat.lt_trichotomy a.line.2 b.line.2 with h2 | h2 | h2
        · exact absurd (Or.inr ⟨h1, Or.inl h2⟩) hn
        · rcases le_total a.x b.x with hx | hx
          · exact absurd (Or.inr ⟨h1, Or.inr ⟨h2, hx⟩⟩) hn
          · exact Or.inr ⟨h1.symm, Or.inr ⟨h2.symm, hx⟩⟩
        · exact Or.inr ⟨h1.symm, Or.inl h2⟩
      · exact Or.inl h1
    have htotal : ∀ (a b : Round1A.Span),
        Round1A.spanLE a b || Round1A.spanLE b a := by
      intro a b
      by_cases hp : (a.line.1 < b.line.1 ∨ (a.line.1 = b.line.1 ∧ (a.line.2 < b.line.2
          ∨ (a.line.2 = b.line.2 ∧ a.x ≤ b.x))))
      · have h1 : Round1A.spanLE a b = true := decide_eq_true hp
        simp [h1]
      · have h2 : Round1A.spanLE b a = true := decide_eq_true (hkey a b hp)
        simp [h2]
    have hpw : List.Pairwise (fun a b : Round1A.Span => lineKeyLE a.line b.line)
        (spans.mergeSort Round1A.spanLE) :=
      (List.sorted_mergeSort htrans htotal spans).imp spanLE_to_lineKeyLE
    rw [pyGroupBy_sorted_eq (spans.mergeSort Round1A.spanLE).length _ le_rfl hpw]
    rw [List.filterMap_map]
    apply list_filterMap_eq_map_of_forall
    intro k hk
    rcases List.mem_map.mp (dedupFirst_subset _ _ hk) with ⟨w, hw, hwk⟩
    have hwf : w ∈ (spans.mergeSort Round1A.spanLE).filter
        (fun s => decide (s.line = k)) :=
      List.mem_filter.mpr ⟨hw, decide_eq_true hwk⟩
    apply mkLine_eq_mkLineA
    · exact List.ne_nil_of_mem hwf
    · refine ⟨w, hwf, ?_⟩
      exact h w ((List.mergeSort_perm spans Round1A.spanLE).subset hw)

/-- The C7 counterexample input: one line key with a large non-bold span
and a smaller bold span. -/
def c7ex : List Round1A.Span :=
  [⟨0, (0, 1), 0, 12, false, "Big".data⟩, ⟨0, (0, 1), 10, 10, true, "small".data⟩]

/-- C7 (counterexample).  On `c7ex` the merged line's bold flag is the
bold flag of the first maximal-size span (`False`, from the 12-point
span), not the OR of the group's bold flags (`True`, because the 10-point
span is bold), so `merge_lines` differs from the claim's description. -/
theorem c7_merge_lines_claim_counterexample :
    Round1A.merge_lines c7ex ≠ Round1A.merge_lines_spec c7ex := by
  have hsort : c7ex.mergeSort Round1A.spanLE = c7ex :=
    List.mergeSort_of_sorted (by decide)
  unfold Round1A.merge_lines Round1A.merge_lines_spec
  rw [if_neg (show ¬ (c7ex = []) from by decide),
    if_neg (show ¬ (c7ex = []) from by decide)]
  rw [hsort]
  decide

/-- C7 witness: the amended group characterization applied at `c7ex`. -/
theorem c7_merge_lines_amended_witness :
    (∀ s ∈ c7ex, ∃ c ∈ s.text, ¬ Py.isWs c)
    ∧ Round1A.merge_lines c7ex
      = (Py.dedupFirst ((c7ex.mergeSort Round1A.spanLE).map (fun s => s.line))).map
          (fun k => Round1A.mkLineA
            ((c7ex.mergeSort Round1A.spanLE).filter (fun s => s.line = k))) :=
  ⟨by decide, c7_merge_lines_amended c7ex (by decide)⟩

/-- C9 (counterexample).  The claim says a line of length exactly 10
qualifies as "substantial" for the fallback.  On `"this is aa\nxx"` the
only candidate line has length exactly 10 and matches no stricter
pattern; the code's fallback test `len(line) > 10` rejects it and returns
the sentinel, while the claim's `[10, 100)` reading would return the
line. -/
theorem c9_detect_title_claim_counterexample :
    ("this is aa".data : Str).length = 10
    ∧ Hackathon.detect_title "this is aa\nxx".data = "Untitled Document".data
    ∧ Hackathon.detect_title_spec "this is aa\nxx".data = "this is aa".data
    ∧ Hackathon.detect_title "this is aa\nxx".data
      ≠ Hackathon.detect_title_spec "this is aa\nxx".data := by
  refine ⟨by decide, by decide, by decide, by decide⟩

/-- C9 (amended): `detect_title` inspects only the first page's first 10
non-empty stripped lines for one passing the stricter title test
(`strictOk`: length in `(5, 100)` and a title pattern or the heuristic);
if none matches it falls back to the first substantial line over all
first-page lines, where substantial means length strictly greater than 10
and less than 100 (length exactly 10 does not qualify); and if no line
qualifies it returns the sentinel `"Untitled Document"`. -/
theorem c9_detect_title_amended (text : Str) :
    (∀ l, ((Hackathon.firstPageLines text).take 10).find? Hackathon.strictOk = some l →
      Hackathon.detect_title text = l)
    ∧ (((Hackathon.firstPageLines text).take 10).find? Hackathon.strictOk = none →
       ∀ l, (Hackathon.firstPageLines text).find? Hackathon.substantialOk = some l →
        Hackathon.detect_title text = l)
    ∧ (((Hackathon.firstPageLines text).take 10).find? Hackathon.strictOk = none →
       (Hackathon.firstPageLines text).find? Hackathon.substantialOk = none →
        Hackathon.detect_title text = "Untitled Document".data)
    ∧ (∀ l : Str, Hackathon.substantialOk l = true ↔ 10 < l.length ∧ l.length < 100) := by
  refine ⟨?_, ?_, ?_, ?_⟩
  · intro l hl
    unfold Hackathon.detect_title
    dsimp only
    rw [hl]
  · intro hn l hl
    unfold Hackathon.detect_title
    dsimp only
    rw [hn, hl]
  · intro hn hs
    unfold Hackathon.detect_title
    dsimp only
    rw [hn, hs]
  · intro l
    simp [Hackathon.substantialOk]

/-- C9 witness: the fallback branch applied at a concrete text whose
first line fails the stricter test but is substantial. -/
theorem c9_detect_title_amended_witness :
    ((Hackathon.firstPageLines "lowercase start here\nmm".data).take 10).find?
        Hackathon.strictOk = none
    ∧ (Hackathon.firstPageLines "lowercase start here\nmm".data).find?
        Hackathon.substantialOk = some "lowercase start here".data
    ∧ Hackathon.detect_title "lowercase start here\nmm".data
      = "lowercase start here".data :=
  ⟨by decide, by decide,
   ((c9_detect_title_amended "lowercase start here\nmm".data).2.1 (by decide))
     "lowercase start here".data (by decide)⟩

theorem pyRound1_form (q : ℚ) : ∃ n : ℤ, Round1B.pyRound1 q = (n : ℚ) / 10 := by
  unfold Round1B.pyRound1
  dsimp only
  split
  · exact ⟨_, rfl⟩
  · split
    · exact ⟨_, rfl⟩
    · split
      · exact ⟨_, rfl⟩
      · exact ⟨_, rfl⟩

theorem pyRound1_bounds {q : ℚ} (h0 : 0 ≤ q) (h10 : q ≤ 10) :
    0 ≤ Round1B.pyRound1 q ∧ Round1B.pyRound1 q ≤ 10 := by
  have hb : ∀ n : ℤ, 0 ≤ n → n ≤ 100 → 0 ≤ (n : ℚ) / 10 ∧ (n : ℚ) / 10 ≤ 10 := by
    intro n hn0 hn1
    constructor
    · apply div_nonneg _ (by norm_num)
      exact_mod_cast hn0
    · rw [div_le_iff₀ (by norm_num : (0 : ℚ) < 10)]
      have : (n : ℚ) ≤ 100 := by exact_mod_cast hn1
      linarith
  unfold Round1B.pyRound1
  have hs0 : (0 : ℚ) ≤ q * 10 := by linarith
  have hs100 : q * 10 ≤ 100 := by linarith
  have hf0 : (0 : ℤ) ≤ ⌊q * 10⌋ := Int.floor_nonneg.mpr hs0
  have hfle : ((⌊q * 10⌋ : ℤ) : ℚ) ≤ q * 10 := Int.floor_le _
  have hf100 : ⌊q * 10⌋ ≤ 100 := by
    have h : ((⌊q * 10⌋ : ℤ) : ℚ) ≤ 100 := le_trans hfle hs100
    exact_mod_cast h
  by_cases h1 : q * 10 - (⌊q * 10⌋ : ℚ) < 1/2
  · simp only [if_pos h1]
    exact hb _ hf0 hf100
  · have hr : 1/2 ≤ q * 10 - (⌊q * 10⌋ : ℚ) := le_of_not_lt h1
    have hf99 : ⌊q * 10⌋ ≤ 99 := by
      have h : ((⌊q * 10⌋ : ℤ) : ℚ) < 100 := by linarith
      have h2 : ⌊q * 10⌋ < 100 := by exact_mod_cast h
      omega
    simp only [if_neg h1]
    split
    · exact hb _ (by omega) (by omega)
    · split
      · exact hb _ hf0 hf100
      · exact hb _ (by omega) (by omega)

theorem matchRatioScore_nonneg (ks : List Str) {w : ℚ} (hw : 0 ≤ w)
    (sec : Round1B.RSection) : 0 ≤ Round1B.matchRatioScore ks w sec := by
  unfold Round1B.matchRatioScore
  apply mul_nonneg _ hw
  apply div_nonneg
  · exact_mod_cast Nat.zero_le _
  · exact_mod_cast Nat.zero_le _

theorem domainScore_nonneg (sec : Round1B.RSection) : 0 ≤ Round1B.domainScore sec := by
  unfold Round1B.domainScore
  apply List.sum_nonneg
  intro x hx
  simp only [List.mem_map] at hx
  obtain ⟨d, _, rfl⟩ := hx
  split
  · apply mul_nonneg _ (by norm_num)
    apply div_nonneg
    · exact_mod_cast Nat.zero_le _
    · exact_mod_cast Nat.zero_le _
  · exact le_refl 0

theorem lengthScore_nonneg (sec : Round1B.RSection) : 0 ≤ Round1B.lengthScore sec := by
  unfold Round1B.lengthScore
  apply le_min _ (by norm_num)
  apply div_nonneg _ (by norm_num)
  exact_mod_cast Nat.zero_le _

theorem sentenceScore_nonneg (sec : Round1B.RSection) : 0 ≤ Round1B.sentenceScore sec := by
  unfold Round1B.sentenceScore
  apply le_min _ (by norm_num)
  apply div_nonneg _ (by norm_num)
  exact_mod_cast Nat.zero_le _

theorem structScore_nonneg (sec : Round1B.RSection) : 0 ≤ Round1B.structScore sec := by
  unfold Round1B.structScore
  apply add_nonneg (add_nonneg _ _) <;> split <;> norm_num

/-- C3: for every section and every persona/job keyword set (empty ones
included), `calculate_relevance_score` returns a value in `[0, 10]` that
is an integer multiple of one tenth (one decimal place); and with both
keyword sets empty the score degrades to exactly the domain,
content-length, sentence-count and structural components (capped at 10
and rounded). -/
theorem c3_relevance_score_bounds (pk jk : List Str) (sec : Round1B.RSection) :
    (0 ≤ Round1B.calculate_relevance_score pk jk sec
      ∧ Round1B.calculate_relevance_score pk jk sec ≤ 10
      ∧ ∃ n : ℤ, Round1B.calculate_relevance_score pk jk sec = (n : ℚ) / 10)
    ∧ (Round1B.findWords (Round1B.contentText sec) ≠ [] →
        Round1B.calculate_relevance_score [] [] sec
          = Round1B.pyRound1 (min (Round1B.domainScore sec + Round1B.lengthScore sec
              + Round1B.sentenceScore sec + Round1B.structScore sec) 10)) := by
  constructor
  · unfold Round1B.calculate_relevance_score
    split
    · exact ⟨le_refl 0, by norm_num, ⟨0, by norm_num⟩⟩
    · set t : ℚ := Round1B.matchRatioScore pk 20 sec + Round1B.matchRatioScore jk 30 sec
        + Round1B.domainScore sec + Round1B.lengthScore sec + Round1B.sentenceScore sec
        + Round1B.structScore sec with ht
      have htn : 0 ≤ t := by
        have h1 := matchRatioScore_nonneg pk (by norm_num : (0:ℚ) ≤ 20) sec
        have h2 := matchRatioScore_nonneg jk (by norm_num : (0:ℚ) ≤ 30) sec
        have h3 := domainScore_nonneg sec
        have h4 := lengthScore_nonneg sec
        have h5 := sentenceScore_nonneg sec
        have h6 := structScore_nonneg sec
        rw [ht]; linarith
      have hmin0 : 0 ≤ min t 10 := le_min htn (by norm_num)
      have hmin10 : min t 10 ≤ 10 := min_le_right t 10
      obtain ⟨hl, hr⟩ := pyRound1_bounds hmin0 hmin10
      exact ⟨hl, hr, pyRound1_form _⟩
  · intro hw
    unfold Round1B.calculate_relevance_score
    rw [if_neg hw]
    have hm1 : Round1B.matchRatioScore [] 20 sec = 0 := by
      unfold Round1B.matchRatioScore
      simp
    have hm2 : Round1B.matchRatioScore [] 30 sec = 0 := by
      unfold Round1B.matchRatioScore
      simp
    rw [hm1, hm2]
    ring_nf

/-- C3 witness: the degradation equation applied at a concrete section
with a non-empty word list. -/
theorem c3_relevance_score_bounds_witness :
    Round1B.findWords (Round1B.contentText ⟨"Hotel".data, "travel plans".data, 1⟩) ≠ [] ∧
    Round1B.calculate_relevance_score [] [] ⟨"Hotel".data, "travel plans".data, 1⟩
      = Round1B.pyRound1 (min (Round1B.domainScore ⟨"Hotel".data, "travel plans".data, 1⟩
          + Round1B.lengthScore ⟨"Hotel".data, "travel plans".data, 1⟩
          + Round1B.sentenceScore ⟨"Hotel".data, "travel plans".data, 1⟩
          + Round1B.structScore ⟨"Hotel".data, "travel plans".data, 1⟩) 10) :=
  ⟨by decide, (c3_relevance_score_bounds [] [] ⟨"Hotel".data, "travel plans".data, 1⟩).2 (by decide)⟩

/-- C1 (counterexample).  The claim says a zero-norm input makes
`calculate_similarity` "either return 0.0 or raise an explicit error" and
that it "never produces an undefined value such as NaN".  At the concrete
input `a = [0.0]`, `b = [1.0]` the vector `a` has zero norm, the code has
no raise path, and the unguarded division `0.0/0.0` produces NaN. -/
theorem c1_zero_norm_claim_counterexample :
    (Backend.calculate_similarity [(0 : ℚ)] [1]).isNaN = true := by
  have h : Backend.sumSq [(0 : ℚ)] = 0 := by norm_num [Backend.sumSq]
  simp [Backend.calculate_similarity, h, Backend.SimResult.isNaN]

/-- C1 (amended): for every pair of vectors, if either vector has zero
norm then `calculate_similarity` produces NaN — consistently the same
undefined value for every zero-norm input, never 0.0 and never an
exception. -/
theorem c1_zero_norm_always_nan (a b : List ℚ)
    (h : Backend.sumSq a = 0 ∨ Backend.sumSq b = 0) :
    Backend.calculate_similarity a b = Backend.SimResult.nan := by
  unfold Backend.calculate_similarity
  simp [h]

/-- C1 witness: the amended theorem applied at `a = [0.0]`, `b = [1.0]`. -/
theorem c1_zero_norm_always_nan_witness :
    (Backend.sumSq [(0 : ℚ)] = 0 ∨ Backend.sumSq [(1 : ℚ)] = 0) ∧
    Backend.calculate_similarity [(0 : ℚ)] [1] = Backend.SimResult.nan :=
  ⟨Or.inl (by norm_num [Backend.sumSq]),
   c1_zero_norm_always_nan [0] [1] (Or.inl (by norm_num [Backend.sumSq]))⟩

